import Mathlib

/-!
Verification of the mail-builder library (MIME message assembly and
serialization).  The definitions below are a shallow embedding of the Rust
sources:

  * `src/lib.rs`    : `MessageBuilder` and `MessageBuilder::write_to`
  * `src/mime.rs`   : `MimePart`, `BodyPart`, `MimePart::write_part`,
                      `detect_encoding`, `make_boundary`
  * `src/headers/date.rs`       : `Date::write_header`
  * `src/headers/message_id.rs` : `MessageId::write_header`

Byte strings produced by the writer are modelled as lists of tagged
`Chunk`s; rendering a chunk list in order and expanding each tag to its
byte pattern yields the byte stream the Rust code writes.  Payload bytes
are `List Nat`; a Rust `str` payload is represented by its UTF-8 byte
sequence.  `BTreeMap`s are modelled as association lists sorted by key.
The byte-level encoders (base64, quoted-printable) and the encoding
classifier live outside this repository's sources; the spec declares them
external collaborators, so encoder applications are kept abstract as
tagged chunks and the classifier is a parameter.
-/

/-- Modelled from the spec: `headers/content_type.rs` is not part of the
given sources.  §3 and §4.3 describe a Content-Type header value as a
type string plus an attribute map (`charset`, `format`, `boundary`, ...),
stored like the other `BTreeMap`s of the crate; we model the attribute
map as an association list sorted by key. -/
structure ContentType where
  ctype : String
  attributes : List (String × String)
deriving DecidableEq, Repr

/-- Sorted-association-list lookup (model of `BTreeMap::get`). -/
def alistLookup {α : Type} : List (String × α) → String → Option α
  | [], _ => none
  | (k, v) :: rest, n => if n = k then some v else alistLookup rest n

/-- Sorted-association-list insert/replace (model of `BTreeMap::insert`). -/
def alistInsert {α : Type} : List (String × α) → String → α → List (String × α)
  | [], n, v => [(n, v)]
  | (k, w) :: rest, n, v =>
    if n < k then (n, v) :: (k, w) :: rest
    else if n = k then (n, v) :: rest
    else (k, w) :: alistInsert rest n v

/-- Sorted-association-list removal returning the removed value
(model of `BTreeMap::remove`). -/
def alistRemove {α : Type} : List (String × α) → String → Option α × List (String × α)
  | [], _ => (none, [])
  | (k, v) :: rest, n =>
    if n = k then (some v, rest)
    else
      let r := alistRemove rest n
      (r.1, (k, v) :: r.2)

/-- `ContentType::new` (modelled from the spec: fresh value with an empty
attribute map). -/
def ContentType.new (t : String) : ContentType := ⟨t, []⟩

/-- `ContentType::attribute` (modelled from the spec: builder method
inserting one attribute). -/
def ContentType.attrib (ct : ContentType) (k v : String) : ContentType :=
  ⟨ct.ctype, alistInsert ct.attributes k v⟩

/-- Modelled from the spec: `ContentType::write_header` renders the value
that follows `Content-Type: ` as the type followed by each attribute as
`; name="value"`, terminated by CRLF (§6 wire format; §8 shows
`Content-Type: text/plain; charset="utf-8"`). -/
def ContentType.render (ct : ContentType) : String :=
  ct.ctype ++
    String.join (ct.attributes.map (fun a => "; " ++ a.1 ++ "=\"" ++ a.2 ++ "\"")) ++
    "\r\n"

/-- Modelled from the spec: `ContentType::is_text` detects a textual
subtype such as `text/plain` (§4.3 "checking the Content-Type header to
detect a textual subtype"). -/
def ContentType.is_text (ct : ContentType) : Bool :=
  "text/".data.isPrefixOf ct.ctype.data

/-- Modelled from the spec: `ContentType::is_attachment` holds for the
Content-Disposition value built by `MimePart::attachment`, whose type
string is `attachment`. -/
def ContentType.is_attachment (ct : ContentType) : Bool := ct.ctype == "attachment"

/-- Modelled from the spec: `headers/mod.rs` (the `HeaderType` enum and its
`Header` dispatch) is not part of the given sources.  §3 lists the
variants; the variants whose rendering the sources do give (`Date`,
`MessageId`) and the ones the MIME writer inspects (`ContentType`, `Raw`)
are explicit, every other variant is collapsed into `other`, carrying the
bytes its own `write_header` would produce (per the §4.1 contract they end
with a line terminator). -/
inductive HeaderType where
  | contentType (ct : ContentType)
  | messageId (ids : List String)
  | date (d : Int)
  | raw (value : String)
  | other (rendered : String)
deriving DecidableEq, Repr

/-- `make_boundary` from `src/mime.rs`: the boundary-token generator is a
stub that returns the empty string (`// TODO`). -/
def make_boundary : String := ""

/-- `MessageId::write_header` inner loop (`src/headers/message_id.rs`):
write `<id>` for each id, and after an id that is not the last one fold
with CRLF+TAB when the running count has reached 76, resetting the count.
Returns the written text and the final `bytes_written`. -/
def message_id_loop : List String → Nat → String × Nat
  | [], bw => ("", bw)
  | [i], bw => ("<" ++ i ++ ">", bw + i.length + 2)
  | i :: j :: rest, bw =>
    let bw1 := bw + i.length + 2
    if bw1 ≥ 76 then
      let r := message_id_loop (j :: rest) 0
      ("<" ++ i ++ ">" ++ "\r\n\t" ++ r.1, r.2)
    else
      let r := message_id_loop (j :: rest) bw1
      ("<" ++ i ++ ">" ++ r.1, r.2)

/-- `MessageId::write_header` (`src/headers/message_id.rs`): run the loop,
then append a final CRLF when `bytes_written > 0`; always returns 0. -/
def MessageId.write_header (ids : List String) (bytes_written : Nat) : String × Nat :=
  let r := message_id_loop ids bytes_written
  (if r.2 > 0 then r.1 ++ "\r\n" else r.1, 0)

/-- `Date::write_header` (`src/headers/date.rs`): writes only CRLF,
ignoring the stored timestamp, and returns 0. -/
def Date.write_header (_d : Int) (_bytes_written : Nat) : String × Nat :=
  ("\r\n", 0)

/-- Dispatch of `Header::write_header` over the header-value variants.
`Date` and `MessageId` follow the given sources; `ContentType` and `Raw`
are modelled from the spec (a `Raw` value writes its text followed by
CRLF); `other` returns its pre-rendered bytes. -/
def HeaderType.write_header : HeaderType → Nat → String × Nat
  | .contentType ct, _ => (ContentType.render ct, 0)
  | .messageId ids, bw => MessageId.write_header ids bw
  | .date d, bw => Date.write_header d bw
  | .raw s, _ => (s ++ "\r\n", 0)
  | .other s, _ => (s, 0)

/-- Modelled from the spec: `HeaderType::as_content_type` yields the
structured Content-Type value when the variant is `ContentType`, `None`
otherwise. -/
def HeaderType.as_content_type : HeaderType → Option ContentType
  | .contentType ct => some ct
  | _ => none

/-- The classifier's result type (`encoders/encode.rs` is external; the
spec §4.4 gives `{SevenBit, QuotedPrintable, Base64}`; the source calls
the seven-bit case `EncodingType::None`). -/
inductive EncodingType where
  | base64
  | quotedPrintable
  | sevenBit
deriving DecidableEq, Repr

/-- One tagged piece of writer output.  `str`/`header` carry literal text
(a header chunk renders as `name ++ ": " ++ value`), `bytes` carries
literal payload bytes, the `encoded*` chunks stand for the external
encoders applied to a payload, and `openDelim b` / `closeDelim b` stand
for the delimiter lines `\r\n--b\r\n` / `\r\n--b--\r\n`. -/
inductive Chunk where
  | str (s : String)
  | header (name : String) (value : String)
  | bytes (b : List Nat)
  | encodedBase64 (b : List Nat)
  | encodedQuotedPrintable (b : List Nat) (is_body : Bool)
  | openDelim (b : String)
  | closeDelim (b : String)
deriving DecidableEq, Repr

/-- The 7-bit body normalization loop inside `detect_encoding`
(`src/mime.rs` lines 356-364): every `\n` (10) whose predecessor byte is
not `\r` (13) is written as `\r\n`; `prev_ch` starts at 0. -/
def normalize_loop : List Nat → Nat → List Nat
  | [], _ => []
  | ch :: rest, prev =>
    (if ch = 10 ∧ prev ≠ 13 then [13, ch] else [ch]) ++ normalize_loop rest ch

/-- `detect_encoding` (`src/mime.rs`): ask the classifier
(`get_encoding_type(input, false, is_body)`), emit the matching
`Content-Transfer-Encoding` header, blank line, and body.  The base64 and
quoted-printable transforms are external and stay abstract; the seven-bit
case writes the bytes itself, normalizing line endings when `is_body`. -/
def detect_encoding (classify : List Nat → Bool → Bool → EncodingType)
    (input : List Nat) (is_body : Bool) : List Chunk :=
  match classify input false is_body with
  | .base64 =>
    [Chunk.str "Content-Transfer-Encoding: base64\r\n\r\n", Chunk.encodedBase64 input]
  | .quotedPrintable =>
    [Chunk.str "Content-Transfer-Encoding: quoted-printable\r\n\r\n",
     Chunk.encodedQuotedPrintable input is_body]
  | .sevenBit =>
    [Chunk.str "Content-Transfer-Encoding: 7bit\r\n\r\n",
     Chunk.bytes (if is_body then normalize_loop input 0 else input)]

/-- The MIME part tree (`src/mime.rs`): `MimePart` is a header map
(`BTreeMap<Cow<str>, HeaderType>`, modelled as a sorted association list)
together with a `BodyPart` that is `Text`, `Binary`, or
`Multipart(Vec<MimePart>)`.  The struct-plus-enum pair is flattened into
one inductive with the headers attached to each variant. -/
inductive MimePart where
  | text (headers : List (String × HeaderType)) (content : List Nat)
  | binary (headers : List (String × HeaderType)) (content : List Nat)
  | multipart (headers : List (String × HeaderType)) (parts : List MimePart)
deriving Repr

/-- Header map of a part. -/
def MimePart.headersOf : MimePart → List (String × HeaderType)
  | .text hs _ => hs
  | .binary hs _ => hs
  | .multipart hs _ => hs

/-- Replace the header map of a part. -/
def MimePart.withHeaders : MimePart → List (String × HeaderType) → MimePart
  | .text _ c, hs => .text hs c
  | .binary _ c, hs => .binary hs c
  | .multipart _ ps, hs => .multipart hs ps

/-- `BTreeMap::insert` on a part's headers (used by the builder methods of
`MimePart` in `src/mime.rs`). -/
def MimePart.insertHeader (p : MimePart) (n : String) (v : HeaderType) : MimePart :=
  p.withHeaders (alistInsert p.headersOf n v)

/-- `MimePart::new_multipart` (`src/mime.rs`). -/
def MimePart.new_multipart (content_type : String) (contents : List MimePart) : MimePart :=
  .multipart [("Content-Type", HeaderType.contentType (ContentType.new content_type))] contents

/-- `MimePart::new_text` (`src/mime.rs`): `text/plain` with
`charset=utf-8`. -/
def MimePart.new_text (contents : List Nat) : MimePart :=
  .text [("Content-Type",
          HeaderType.contentType ((ContentType.new "text/plain").attrib "charset" "utf-8"))]
    contents

/-- `MimePart::new_text_flowed` (`src/mime.rs`): `text/plain` with
`charset=utf-8` and `format=flowed`. -/
def MimePart.new_text_flowed (contents : List Nat) : MimePart :=
  .text [("Content-Type",
          HeaderType.contentType
            (((ContentType.new "text/plain").attrib "charset" "utf-8").attrib
              "format" "flowed"))]
    contents

/-- `MimePart::new_text_other` (`src/mime.rs`). -/
def MimePart.new_text_other (content_type : String) (contents : List Nat) : MimePart :=
  .text [("Content-Type",
          HeaderType.contentType ((ContentType.new content_type).attrib "charset" "utf-8"))]
    contents

/-- `MimePart::new_html` (`src/mime.rs`). -/
def MimePart.new_html (contents : List Nat) : MimePart :=
  .text [("Content-Type",
          HeaderType.contentType ((ContentType.new "text/html").attrib "charset" "utf-8"))]
    contents

/-- `MimePart::new_binary` (`src/mime.rs`). -/
def MimePart.new_binary (c_type : String) (contents : List Nat) : MimePart :=
  .binary [("Content-Type", HeaderType.contentType (ContentType.new c_type))] contents

/-- `MimePart::attachment` (`src/mime.rs`): set `Content-Disposition:
attachment; filename="..."`. -/
def MimePart.attachment (p : MimePart) (filename : String) : MimePart :=
  p.insertHeader "Content-Disposition"
    (HeaderType.contentType ((ContentType.new "attachment").attrib "filename" filename))

/-- `MimePart::inline` (`src/mime.rs`): set `Content-Disposition: inline`. -/
def MimePart.inline (p : MimePart) : MimePart :=
  p.insertHeader "Content-Disposition" (HeaderType.contentType (ContentType.new "inline"))

/-- `MimePart::cid` (`src/mime.rs`): set `Content-ID`. -/
def MimePart.cid (p : MimePart) (value : String) : MimePart :=
  p.insertHeader "Content-ID" (HeaderType.messageId [value])

/-- The `is_attachment` flag of the `BodyPart::Text` arm of `write_part`
(`src/mime.rs` lines 235-244): scanning the headers in map order, the
first `Content-Disposition` value seen while the flag is still false sets
it to `as_content_type().map(is_attachment).unwrap_or(false)`.  (In the
source the scan is interleaved with writing the headers; the emitted
bytes do not depend on the flag, so flag and text are computed by
separate functions here.) -/
def text_is_attachment : List (String × HeaderType) → Bool → Bool
  | [], acc => acc
  | (n, v) :: rest, acc =>
    text_is_attachment rest
      (if !acc && n == "Content-Disposition" then
        ((HeaderType.as_content_type v).map ContentType.is_attachment).getD false
      else acc)

/-- The `(is_text, is_attachment)` flags of the `BodyPart::Binary` arm of
`write_part` (`src/mime.rs` lines 250-265), with the source's
`if !is_text && name == "Content-Type" { .. } else if !is_attachment &&
name == "Content-Disposition" { .. }` chain. -/
def binary_flags : List (String × HeaderType) → Bool → Bool → Bool × Bool
  | [], is_text, is_att => (is_text, is_att)
  | (n, v) :: rest, is_text, is_att =>
    if !is_text && n == "Content-Type" then
      binary_flags rest
        (((HeaderType.as_content_type v).map ContentType.is_text).getD false) is_att
    else if !is_att && n == "Content-Disposition" then
      binary_flags rest is_text
        (((HeaderType.as_content_type v).map ContentType.is_attachment).getD false)
    else binary_flags rest is_text is_att

/-- Per-part header emission of `write_part`: for each header in map
order, write `name`, `": "`, and the value's `write_header` output. -/
def renderMimeHeaders (hs : List (String × HeaderType)) : List Chunk :=
  hs.map (fun h => Chunk.str (h.1 ++ ": " ++ (HeaderType.write_header h.2 (h.1.length + 2)).1))

/-- `BodyPart::Text` arm of `write_part`: headers, then
`detect_encoding(text, output, !is_attachment)`. -/
def writeTextPart (classify : List Nat → Bool → Bool → EncodingType)
    (hs : List (String × HeaderType)) (content : List Nat) : List Chunk :=
  renderMimeHeaders hs ++ detect_encoding classify content (!(text_is_attachment hs false))

/-- `BodyPart::Binary` arm of `write_part`: headers, then either a forced
`Content-Transfer-Encoding: base64` with base64 body when the
Content-Type is not textual, or `detect_encoding` as for text. -/
def writeBinaryPart (classify : List Nat → Bool → Bool → EncodingType)
    (hs : List (String × HeaderType)) (content : List Nat) : List Chunk :=
  let fl := binary_flags hs false false
  renderMimeHeaders hs ++
    (if !fl.1 then
      [Chunk.str "Content-Transfer-Encoding: base64\r\n\r\n", Chunk.encodedBase64 content]
    else detect_encoding classify content (!fl.2))

/-- Suffix of `s` starting at the first occurrence of `pat` (model of
`str::find` returning the slice `raw[pos..]`). -/
def listFindSuffix (pat : List Char) : List Char → Option (List Char)
  | [] => if pat.isPrefixOf ([] : List Char) then some [] else none
  | c :: rest =>
    if pat.isPrefixOf (c :: rest) then some (c :: rest) else listFindSuffix pat rest

/-- `split('"').nth(1)` of a character list: the segment after the first
`"` up to the next `"` (or the end). -/
def splitQuoteNth1 (l : List Char) : Option (List Char) :=
  match l.dropWhile (fun c => c ≠ '"') with
  | [] => none
  | _ :: after => some (after.takeWhile (fun c => c ≠ '"'))

/-- The boundary extraction of the `HeaderType::Raw` arm of the multipart
case of `write_part` (`src/mime.rs` lines 292-306): if the raw value
contains `boundary="`, take `raw[pos..].split('"').nth(1)` (falling back
to `make_boundary()` if that is somehow absent); otherwise `None`. -/
def rawFindBoundary (r : String) : Option String :=
  match listFindSuffix ("boundary=\"".data) r.data with
  | some suf =>
    match splitQuoteNth1 suf with
    | some tok => some (String.mk tok)
    | none => some make_boundary
  | none => none

/-- The Content-Type handling of the `BodyPart::Multipart` arm of
`write_part` (`src/mime.rs` lines 280-316).  Returns `none` on the
`panic!` arm (unsupported Content-Type header value), otherwise the
chunks written after the `Content-Type: ` prefix, the new active
boundary, and the remaining headers:
 * structured `ContentType`: insert `boundary=make_boundary()` if the
   attribute is vacant, render the full value, then remove the attribute
   and promote it to the active boundary;
 * `Raw` containing `boundary="`: reuse the token, writing nothing;
 * `Raw` without a boundary: write the raw text plus
   `; boundary="<fresh>"` CRLF;
 * no Content-Type header: render `multipart/mixed` with a fresh
   boundary. -/
def multipartContentType (hs : List (String × HeaderType)) :
    Option (List Chunk × Option String × List (String × HeaderType)) :=
  let r := alistRemove hs "Content-Type"
  match r.1 with
  | some (HeaderType.contentType ct) =>
    let ct2 :=
      if (alistLookup ct.attributes "boundary").isSome then ct
      else ⟨ct.ctype, alistInsert ct.attributes "boundary" make_boundary⟩
    some ([Chunk.str (ContentType.render ct2)], alistLookup ct2.attributes "boundary", r.2)
  | some (HeaderType.raw rv) =>
    match rawFindBoundary rv with
    | some tok => some ([], some tok, r.2)
    | none =>
      some ([Chunk.str (rv ++ "; boundary=\"" ++ make_boundary ++ "\"\r\n")],
        some make_boundary, r.2)
  | some _ => none
  | none =>
    some ([Chunk.str (ContentType.render ((ContentType.new "multipart/mixed").attrib
            "boundary" make_boundary))],
      some make_boundary, r.2)

/-- The `\r\n--<boundary>\r\n` opening delimiter written before a part
when a boundary is active. -/
def openChunks : Option String → List Chunk
  | some b => [Chunk.openDelim b]
  | none => []

/-- The `\r\n--<boundary>--\r\n` closing delimiter written when the
current sibling cursor is exhausted and a boundary is active. -/
def closeChunks : Option String → List Chunk
  | some b => [Chunk.closeDelim b]
  | none => []

/-- The iterative loop of `MimePart::write_part` (`src/mime.rs` lines
221-341), on the state `(it, boundary, stack)`: `it` is the current
sibling cursor, `boundary` the active boundary (`None` at the root), and
`stack` the saved `(cursor, boundary)` frames.  A dequeued part is
preceded by the opening delimiter when a boundary is active; a multipart
part pushes the current frame (only when a boundary is active), writes
`Content-Type: ` and the handled value plus its remaining headers and a
blank line, and descends; an exhausted cursor writes the closing
delimiter and pops a frame (or stops).  `none` models the `panic!` on an
unsupported multipart Content-Type value. -/
def writePartLoop (classify : List Nat → Bool → Bool → EncodingType) :
    List MimePart → Option String → List (List MimePart × Option String) →
      Option (List Chunk)
  | [], boundary, stack =>
    match stack with
    | [] => some (closeChunks boundary)
    | (pit, pb) :: rest =>
      (writePartLoop classify pit pb rest).map (fun tail => closeChunks boundary ++ tail)
  | MimePart.text hs content :: it, boundary, stack =>
    (writePartLoop classify it boundary stack).map (fun tail =>
      openChunks boundary ++ writeTextPart classify hs content ++ tail)
  | MimePart.binary hs content :: it, boundary, stack =>
    (writePartLoop classify it boundary stack).map (fun tail =>
      openChunks boundary ++ writeBinaryPart classify hs content ++ tail)
  | MimePart.multipart hs parts :: it, boundary, stack =>
    match multipartContentType hs with
    | none => none
    | some (ctChunks, newBoundary, restHeaders) =>
      (writePartLoop classify parts newBoundary
          (if boundary.isSome then (it, boundary) :: stack else stack)).map (fun tail =>
        openChunks boundary ++ (Chunk.str "Content-Type: " :: ctChunks) ++
          renderMimeHeaders restHeaders ++ [Chunk.str "\r\n"] ++ tail)
termination_by it _ stack =>
  2 * (sizeOf it + (stack.map (fun f => sizeOf f.1)).sum) + stack.length
decreasing_by
  all_goals
    simp only [List.map_cons, List.sum_cons, List.cons.sizeOf_spec, List.nil.sizeOf_spec,
      List.length_cons, MimePart.text.sizeOf_spec, MimePart.binary.sizeOf_spec,
      MimePart.multipart.sizeOf_spec]
  · omega
  · omega
  · omega
  · rcases boundary with _ | b <;> simp <;> omega

/-- `MimePart::write_part` on a whole tree: run the loop from
`(vec![self], None, [])`. -/
def writePart (classify : List Nat → Bool → Bool → EncodingType) (p : MimePart) :
    Option (List Chunk) :=
  writePartLoop classify [p] none []

/-- `MessageBuilder` (`src/lib.rs`): top-level headers
(`BTreeMap<Cow<str>, Vec<HeaderType>>`, modelled as a sorted association
list of value sequences) plus the body inputs and the `flowed` flag. -/
structure MessageBuilder where
  headers : List (String × List HeaderType)
  html_body : Option MimePart
  text_body : Option MimePart
  attachments : Option (List MimePart)
  body : Option MimePart
  flowed : Bool

/-- `MessageBuilder::new`. -/
def MessageBuilder.new : MessageBuilder :=
  ⟨[], none, none, none, none, false⟩

/-- `BTreeMap::entry(name).or_insert_with(Vec::new).push(value)` used by
`MessageBuilder::header`. -/
def headerEntryPush :
    List (String × List HeaderType) → String → HeaderType →
      List (String × List HeaderType)
  | [], n, v => [(n, [v])]
  | (k, ws) :: rest, n, v =>
    if n < k then (n, [v]) :: (k, ws) :: rest
    else if n = k then (k, ws ++ [v]) :: rest
    else (k, ws) :: headerEntryPush rest n v

/-- `MessageBuilder::header`. -/
def MessageBuilder.header (b : MessageBuilder) (n : String) (v : HeaderType) :
    MessageBuilder :=
  { b with headers := headerEntryPush b.headers n v }

/-- `MessageBuilder::message_id`. -/
def MessageBuilder.message_id (b : MessageBuilder) (ids : List String) : MessageBuilder :=
  b.header "Message-ID" (HeaderType.messageId ids)

/-- `MessageBuilder::date`. -/
def MessageBuilder.date (b : MessageBuilder) (d : Int) : MessageBuilder :=
  b.header "Date" (HeaderType.date d)

/-- `MessageBuilder::format_flowed`. -/
def MessageBuilder.format_flowed (b : MessageBuilder) : MessageBuilder :=
  { b with flowed := true }

/-- `MessageBuilder::text_body` (`src/lib.rs` lines 329-335; named
`set_text_body` here because the Lean structure field of the same name
is the storage it writes to). -/
def MessageBuilder.set_text_body (b : MessageBuilder) (value : List Nat) : MessageBuilder :=
  if b.flowed then { b with text_body := some (MimePart.new_text_flowed value) }
  else { b with text_body := some (MimePart.new_text value) }

/-- `MessageBuilder::html_body`. -/
def MessageBuilder.set_html_body (b : MessageBuilder) (value : List Nat) : MessageBuilder :=
  { b with html_body := some (MimePart.new_html value) }

/-- `MessageBuilder::binary_attachment`. -/
def MessageBuilder.binary_attachment (b : MessageBuilder) (content_type filename : String)
    (value : List Nat) : MessageBuilder :=
  let part := (MimePart.new_binary content_type value).attachment filename
  { b with attachments := some ((b.attachments.getD []) ++ [part]) }

/-- `MessageBuilder::text_attachment`. -/
def MessageBuilder.text_attachment (b : MessageBuilder) (content_type filename : String)
    (value : List Nat) : MessageBuilder :=
  let part := (MimePart.new_text_other content_type value).attachment filename
  { b with attachments := some ((b.attachments.getD []) ++ [part]) }

/-- `MessageBuilder::binary_inline`. -/
def MessageBuilder.binary_inline (b : MessageBuilder) (content_type cid : String)
    (value : List Nat) : MessageBuilder :=
  let part := ((MimePart.new_binary content_type value).inline).cid cid
  { b with attachments := some ((b.attachments.getD []) ++ [part]) }

/-- `MessageBuilder::body`. -/
def MessageBuilder.set_body (b : MessageBuilder) (value : MimePart) : MessageBuilder :=
  { b with body := some value }

/-- The body-selection expression of `MessageBuilder::write_to`
(`src/lib.rs` lines 416-452): a set custom body wins; otherwise the match
on `(text_body, html_body, attachments)`; with nothing set, a default
`text/plain` part containing a single newline (byte 10). -/
def assembleBody (b : MessageBuilder) : MimePart :=
  match b.body with
  | some body => body
  | none =>
    match b.text_body, b.html_body, b.attachments with
    | some text, some html, some attachments =>
      MimePart.new_multipart "multipart/mixed"
        (MimePart.new_multipart "multipart/alternative" [text, html] :: attachments)
    | some text, some html, none =>
      MimePart.new_multipart "multipart/alternative" [text, html]
    | some text, none, some attachments =>
      MimePart.new_multipart "multipart/mixed" (text :: attachments)
    | some text, none, none => text
    | none, some html, some attachments =>
      MimePart.new_multipart "multipart/mixed" (html :: attachments)
    | none, some html, none => html
    | none, none, some attachments =>
      MimePart.new_multipart "multipart/mixed" attachments
    | none, none, none => MimePart.new_text [10]

/-- The top-level header loop of `MessageBuilder::write_to` (`src/lib.rs`
lines 390-402): iterate the header map in order, tracking the
`has_date` / `has_message_id` flags with the source's
`if !has_date && name == "Date" { .. } else if !has_message_id &&
name == "Message-ID" { .. }` chain, and emit `name: value` for every
value under the name.  Top-level header emissions are tagged as
`Chunk.header` (rendering as `name ++ ": " ++ value`). -/
def writeToHeaders :
    List (String × List HeaderType) → Bool → Bool → (Bool × Bool) × List Chunk
  | [], has_date, has_mid => ((has_date, has_mid), [])
  | (n, vs) :: rest, has_date, has_mid =>
    let has_date' := if !has_date && n == "Date" then true else has_date
    let has_mid' :=
      if !has_date && n == "Date" then has_mid
      else if !has_mid && n == "Message-ID" then true else has_mid
    let chunks := vs.map (fun v =>
      Chunk.header n (HeaderType.write_header v (n.length + 2)).1)
    let r := writeToHeaders rest has_date' has_mid'
    (r.1, chunks ++ r.2)

/-- `MessageBuilder::write_to` (`src/lib.rs` lines 386-456): emit the
explicit headers; when no `Message-ID` header was present, synthesize
`Message-ID: <make_boundary()>`; when no `Date` header was present,
synthesize `Date: ` followed by the formatted current local time (the
wall clock is external, so the formatted string is the parameter `now`);
then serialize the assembled body with `write_part`. -/
def writeTo (classify : List Nat → Bool → Bool → EncodingType) (now : String)
    (b : MessageBuilder) : Option (List Chunk) :=
  let r := writeToHeaders b.headers false false
  let mid :=
    if r.1.2 then []
    else [Chunk.header "Message-ID" ("<" ++ make_boundary ++ ">\r\n")]
  let dt := if r.1.1 then [] else [Chunk.header "Date" (now ++ "\r\n")]
  (writePart classify (assembleBody b)).map (fun body => r.2 ++ mid ++ dt ++ body)

/-- The boundary-delimiter events of a chunk stream: `(true, b)` for an
opening delimiter line, `(false, b)` for a closing one. -/
def delimEvents : List Chunk → List (Bool × String)
  | [] => []
  | Chunk.openDelim b :: rest => (true, b) :: delimEvents rest
  | Chunk.closeDelim b :: rest => (false, b) :: delimEvents rest
  | _ :: rest => delimEvents rest

/-- Opening events contributed by an active boundary. -/
def openEvents : Option String → List (Bool × String)
  | some t => [(true, t)]
  | none => []

/-- Closing events contributed by an active boundary. -/
def closeEvents : Option String → List (Bool × String)
  | some t => [(false, t)]
  | none => []

mutual

/-- Delimiter events produced inside one part (none for leaves; for a
multipart, the events of its boundary scope). -/
def innerDelims : MimePart → List (Bool × String)
  | .text _ _ => []
  | .binary _ _ => []
  | .multipart hs parts =>
    match multipartContentType hs with
    | some r => scopeDelims r.2.1 parts
    | none => []
termination_by p => sizeOf p
decreasing_by simp

/-- Delimiter events of a boundary scope over a sibling list: one opening
delimiter before each sibling, the sibling's own inner events, and a
single closing delimiter after the last sibling. -/
def scopeDelims : Option String → List MimePart → List (Bool × String)
  | b, [] => closeEvents b
  | b, p :: ps => openEvents b ++ innerDelims p ++ scopeDelims b ps
termination_by _ ps => sizeOf ps
decreasing_by
  all_goals simp
  all_goals omega

end

/-- The claim's description of 7-bit body normalization, written from its
words: every `\n` byte (10) not preceded by `\r` (13) is rewritten to
`\r\n`, all other bytes are kept unchanged in order; the first byte has
no predecessor (the zipped predecessor list starts at 0, which is not
`\r`). -/
def claimNormalize (input : List Nat) : List Nat :=
  ((input.zip (0 :: input)).map
    (fun p => if p.1 = 10 ∧ p.2 ≠ 13 then [13, 10] else [p.1])).flatten

/-- Number of `Chunk.header` emissions carrying a given header name. -/
def countHeaderNamed (nm : String) (chunks : List Chunk) : Nat :=
  chunks.countP (fun c =>
    match c with
    | Chunk.header n _ => n == nm
    | _ => false)

/-- Well-scoped delimiter words of one boundary scope with token `t`:
the remaining items of the scope, each an opening delimiter `(true, t)`
followed by nothing (leaf sibling) or by a complete nested scope, ending
with the single closing delimiter `(false, t)`.  Closings therefore occur
exactly once per scope, in LIFO order matching the nesting. -/
inductive ScopeItems : String → List (Bool × String) → Prop where
  | close (t : String) : ScopeItems t [(false, t)]
  | leaf (t : String) (w : List (Bool × String)) :
      ScopeItems t w → ScopeItems t ((true, t) :: w)
  | nest (t u : String) (v w : List (Bool × String)) :
      ScopeItems u v → ScopeItems t w → ScopeItems t ((true, t) :: (v ++ w))

/-- A constant classifier, used to instantiate the classifier parameter
on concrete runs. -/
def constClassifier (e : EncodingType) : List Nat → Bool → Bool → EncodingType :=
  fun _ _ _ => e

/-- Whether a chunk is an application of the external base64 encoder. -/
def chunkIsBase64 : Chunk → Bool
  | Chunk.encodedBase64 _ => true
  | _ => false

/-- Substring test over the rendered text of a chunk (encoder
applications carry no literal text). -/
def strContainsSub (s pat : String) : Bool :=
  (listFindSuffix pat.data s.data).isSome

/-- Whether the bytes a chunk renders to mention the given pattern. -/
def chunkMentions (c : Chunk) (pat : String) : Bool :=
  match c with
  | Chunk.str s => strContainsSub s pat
  | Chunk.header n v => strContainsSub (n ++ ": " ++ v) pat
  | Chunk.openDelim b => strContainsSub ("\r\n--" ++ b ++ "\r\n") pat
  | Chunk.closeDelim b => strContainsSub ("\r\n--" ++ b ++ "--\r\n") pat
  | _ => false

/-- Delimiter events still owed by the saved frame stack: each frame
finishes its scope (remaining opens, then its close), outermost last. -/
def unwindDelims : List (List MimePart × Option String) → List (Bool × String)
  | [] => []
  | (pit, pb) :: rest => scopeDelims pb pit ++ unwindDelims rest

theorem delimEvents_append (a b : List Chunk) :
    delimEvents (a ++ b) = delimEvents a ++ delimEvents b := by
  induction a with
  | nil => rfl
  | cons c rest ih => cases c <;> simp [delimEvents, ih]

theorem delimEvents_renderMimeHeaders (hs : List (String × HeaderType)) :
    delimEvents (renderMimeHeaders hs) = [] := by
  induction hs with
  | nil => rfl
  | cons h t ih => simp [renderMimeHeaders, delimEvents] at ih ⊢; exact ih

theorem delimEvents_detect_encoding (classify : List Nat → Bool → Bool → EncodingType)
    (input : List Nat) (is_body : Bool) :
    delimEvents (detect_encoding classify input is_body) = [] := by
  unfold detect_encoding
  cases classify input false is_body <;> simp [delimEvents]

theorem delimEvents_writeTextPart (classify : List Nat → Bool → Bool → EncodingType)
    (hs : List (String × HeaderType)) (content : List Nat) :
    delimEvents (writeTextPart classify hs content) = [] := by
  simp [writeTextPart, delimEvents_append, delimEvents_renderMimeHeaders,
    delimEvents_detect_encoding]

theorem delimEvents_writeBinaryPart (classify : List Nat → Bool → Bool → EncodingType)
    (hs : List (String × HeaderType)) (content : List Nat) :
    delimEvents (writeBinaryPart classify hs content) = [] := by
  simp only [writeBinaryPart]
  by_cases hfl : (binary_flags hs false false).1 <;>
    simp [hfl, delimEvents_append, delimEvents_renderMimeHeaders,
      delimEvents_detect_encoding, delimEvents]

theorem delimEvents_openChunks (b : Option String) :
    delimEvents (openChunks b) = openEvents b := by
  cases b <;> rfl

theorem delimEvents_closeChunks (b : Option String) :
    delimEvents (closeChunks b) = closeEvents b := by
  cases b <;> rfl

theorem alistLookup_insert_self {α : Type} (l : List (String × α)) (k : String) (v : α) :
    alistLookup (alistInsert l k v) k = some v := by
  induction l with
  | nil => simp [alistInsert, alistLookup]
  | cons h t ih =>
    simp only [alistInsert]
    split
    · simp [alistLookup]
    · split
      · simp [alistLookup]
      · have hne : ¬ k = h.1 := by assumption
        simp [alistLookup, hne, ih]

/-- Every multipart Content-Type handling that does not panic yields an
active boundary token. -/
theorem multipartContentType_isSome (hs : List (String × HeaderType))
    (r : List Chunk × Option String × List (String × HeaderType))
    (h : multipartContentType hs = some r) : r.2.1.isSome = true := by
  simp only [multipartContentType] at h
  rcases hv : (alistRemove hs "Content-Type").1 with _ | v
  · simp only [hv, Option.some.injEq] at h
    subst h
    rfl
  · cases v with
    | contentType ct =>
      by_cases hb : (alistLookup ct.attributes "boundary").isSome
      · simp only [hv, hb, if_true, Option.some.injEq] at h
        subst h
        exact hb
      · simp only [hv, hb, if_false, Option.some.injEq, Bool.false_eq_true] at h
        subst h
        simp [alistLookup_insert_self]
    | raw rv =>
      rcases hrb : rawFindBoundary rv with _ | tok <;>
        simp only [hv, hrb, Option.some.injEq] at h <;> subst h <;> rfl
    | messageId ids => simp [hv] at h
    | date d => simp [hv] at h
    | other s => simp [hv] at h

/-- The chunks written for a multipart Content-Type value contain no
boundary delimiters. -/
theorem multipartContentType_delims (hs : List (String × HeaderType))
    (r : List Chunk × Option String × List (String × HeaderType))
    (h : multipartContentType hs = some r) : delimEvents r.1 = [] := by
  simp only [multipartContentType] at h
  rcases hv : (alistRemove hs "Content-Type").1 with _ | v
  · simp only [hv, Option.some.injEq] at h
    subst h
    rfl
  · cases v with
    | contentType ct =>
      simp only [hv, Option.some.injEq] at h
      subst h
      rfl
    | raw rv =>
      rcases hrb : rawFindBoundary rv with _ | tok <;>
        simp only [hv, hrb, Option.some.injEq] at h <;> subst h <;> rfl
    | messageId ids => simp [hv] at h
    | date d => simp [hv] at h
    | other s => simp [hv] at h

/-- Refinement of the iterative writer loop by the recursive-descent
delimiter structure: from any loop state whose saved frames all carry an
active boundary (and whose cursor is a singleton when no boundary is
active yet, as at the root), a successful run emits exactly the
delimiter events of the current scope followed by the unwinding of the
saved frames. -/
theorem writePartLoop_delims (classify : List Nat → Bool → Bool → EncodingType) :
    ∀ (it : List MimePart) (b : Option String)
      (stack : List (List MimePart × Option String)) (chunks : List Chunk),
      (b = none → it.length ≤ 1) →
      (∀ f ∈ stack, (f.2).isSome = true) →
      writePartLoop classify it b stack = some chunks →
      delimEvents chunks = scopeDelims b it ++ unwindDelims stack := by
  intro it b stack
  induction it, b, stack using writePartLoop.induct classify with
  | case1 b1 =>
    intro chunks _ _ h
    simp only [writePartLoop, Option.some.injEq] at h
    subst h
    simp [delimEvents_closeChunks, scopeDelims, unwindDelims]
  | case2 b1 pit pb rest ih =>
    intro chunks _ hstack h
    simp only [writePartLoop, Option.map_eq_some'] at h
    obtain ⟨tail, htail, rfl⟩ := h
    have hpb : pb.isSome = true := hstack (pit, pb) (by simp)
    have h1 : pb = none → pit.length ≤ 1 := by
      intro hn
      rw [hn] at hpb
      simp at hpb
    have h2 : ∀ f ∈ rest, (f.2).isSome = true := fun f hf => hstack f (by simp [hf])
    have := ih tail h1 h2 htail
    simp [delimEvents_append, delimEvents_closeChunks, this, scopeDelims, unwindDelims]
  | case3 hs content it b1 stack ih =>
    intro chunks hlen hstack h
    simp only [writePartLoop, Option.map_eq_some'] at h
    obtain ⟨tail, htail, rfl⟩ := h
    have h1 : b1 = none → it.length ≤ 1 := by
      intro hn
      have h2 := hlen hn
      simp only [List.length_cons] at h2
      omega
    have := ih tail h1 hstack htail
    simp [delimEvents_append, delimEvents_openChunks, delimEvents_writeTextPart, this,
      scopeDelims, innerDelims, List.append_assoc]
  | case4 hs content it b1 stack ih =>
    intro chunks hlen hstack h
    simp only [writePartLoop, Option.map_eq_some'] at h
    obtain ⟨tail, htail, rfl⟩ := h
    have h1 : b1 = none → it.length ≤ 1 := by
      intro hn
      have h2 := hlen hn
      simp only [List.length_cons] at h2
      omega
    have := ih tail h1 hstack htail
    simp [delimEvents_append, delimEvents_openChunks, delimEvents_writeBinaryPart, this,
      scopeDelims, innerDelims, List.append_assoc]
  | case5 hs parts it b1 stack hmct =>
    intro chunks _ _ h
    simp [writePartLoop, hmct] at h
  | case6 hs parts it b1 stack ctChunks newB restHeaders hmct ih =>
    intro chunks hlen hstack h
    simp only [writePartLoop, hmct, Option.map_eq_some'] at h
    obtain ⟨tail, htail, rfl⟩ := h
    have hnb : newB.isSome = true :=
      multipartContentType_isSome hs (ctChunks, newB, restHeaders) hmct
    have h1 : newB = none → parts.length ≤ 1 := by
      intro hn
      rw [hn] at hnb
      simp at hnb
    have hct : delimEvents ctChunks = [] :=
      multipartContentType_delims hs (ctChunks, newB, restHeaders) hmct
    have hinner : innerDelims (MimePart.multipart hs parts) = scopeDelims newB parts := by
      simp [innerDelims, hmct]
    rcases b1 with _ | tb
    · simp at htail ih
      have hit : it = [] := by
        have h2 := hlen rfl
        simp only [List.length_cons] at h2
        cases it with
        | nil => rfl
        | cons a l => simp at h2
      subst hit
      have hthis := ih tail h1 (fun a b hab => hstack (a, b) hab) htail
      simp [delimEvents_append, delimEvents_openChunks, delimEvents, hct,
        delimEvents_renderMimeHeaders, hthis, scopeDelims, hinner, openEvents,
        closeEvents, unwindDelims]
    · simp at htail ih
      have h2 : ∀ f ∈ (it, some tb) :: stack, (f.2).isSome = true := by
        intro f hf
        rcases List.mem_cons.mp hf with hf1 | hf1
        · subst hf1
          rfl
        · exact hstack f hf1
      have hthis := ih tail h1 (fun a b hab => hstack (a, b) hab) htail
      simp [delimEvents_append, delimEvents_openChunks, delimEvents, hct,
        delimEvents_renderMimeHeaders, hthis, scopeDelims, hinner, openEvents,
        unwindDelims, List.append_assoc]

/-- Every boundary scope of the recursive delimiter structure is well
formed: a leaf contributes nothing, a multipart contributes a complete
`ScopeItems` word for its own token. -/
theorem scopeDelims_scoped (n : Nat) :
    (∀ p : MimePart, sizeOf p ≤ n →
      innerDelims p = [] ∨ ∃ u, ScopeItems u (innerDelims p)) ∧
    (∀ (t : String) (ps : List MimePart), sizeOf ps ≤ n →
      ScopeItems t (scopeDelims (some t) ps)) := by
  induction n using Nat.strong_induction_on with
  | _ n ih =>
    constructor
    · intro p hp
      cases p with
      | text hs c =>
        left
        simp [innerDelims]
      | binary hs c =>
        left
        simp [innerDelims]
      | multipart hs parts =>
        rcases hmct : multipartContentType hs with _ | r
        · left
          simp [innerDelims, hmct]
        · have hnb := multipartContentType_isSome hs r hmct
          obtain ⟨u, hu⟩ := Option.isSome_iff_exists.mp hnb
          right
          refine ⟨u, ?_⟩
          have hlt : sizeOf parts < n := by
            simp only [MimePart.multipart.sizeOf_spec] at hp
            omega
          have := (ih (sizeOf parts) hlt).2 u parts (le_refl _)
          simpa [innerDelims, hmct, hu] using this
    · intro t ps hps
      cases ps with
      | nil =>
        have : scopeDelims (some t) [] = [(false, t)] := by simp [scopeDelims, closeEvents]
        rw [this]
        exact ScopeItems.close t
      | cons p rest =>
        have hlt1 : sizeOf p < n := by
          simp only [List.cons.sizeOf_spec] at hps
          omega
        have hlt2 : sizeOf rest < n := by
          simp only [List.cons.sizeOf_spec] at hps
          omega
        have hrest := (ih (sizeOf rest) hlt2).2 t rest (le_refl _)
        have hinner := (ih (sizeOf p) hlt1).1 p (le_refl _)
        rcases hinner with hinner | ⟨u, hu⟩
        · have : scopeDelims (some t) (p :: rest) = (true, t) :: scopeDelims (some t) rest := by
            simp [scopeDelims, hinner, openEvents]
          rw [this]
          exact ScopeItems.leaf t _ hrest
        · have : scopeDelims (some t) (p :: rest) =
              (true, t) :: (innerDelims p ++ scopeDelims (some t) rest) := by
            simp [scopeDelims, openEvents]
          rw [this]
          exact ScopeItems.nest t u _ _ hu hrest

/-- C2 (amended): for every MimePart tree successfully serialized by
`write_part`, the delimiter lines in the emitted stream are exactly the
per-scope recursive structure `innerDelims` (one opening delimiter line
`\r\n--t\r\n` before each child of a multipart scope with token `t`, and
a single closing delimiter line `\r\n--t--\r\n` terminating the scope),
and that structure is a well-formed `ScopeItems` nesting: every activated
boundary is closed exactly once, closings occur in strict LIFO order
matching the tree nesting, and each closing delimiter's token is that of
the innermost still-open scope.  (The original claim's equal count of
opening and closing delimiter lines is refuted separately: a scope closes
once regardless of its number of children.) -/
theorem claim_C2_amended (classify : List Nat → Bool → Bool → EncodingType)
    (root : MimePart) (chunks : List Chunk)
    (h : writePart classify root = some chunks) :
    delimEvents chunks = innerDelims root ∧
    (innerDelims root = [] ∨ ∃ t, ScopeItems t (innerDelims root)) := by
  constructor
  · have hmain := writePartLoop_delims classify [root] none [] chunks
      (by intro _; simp) (by simp) h
    simpa [scopeDelims, unwindDelims, openEvents, closeEvents] using hmain
  · exact (scopeDelims_scoped (sizeOf root)).1 root (le_refl _)

theorem claim_C2_amended_witness :
    delimEvents
        [Chunk.str "Content-Type: ",
         Chunk.str "multipart/mixed; boundary=\"\"\r\n",
         Chunk.str "\r\n",
         Chunk.openDelim "",
         Chunk.str "Content-Type: text/plain; charset=\"utf-8\"\r\n",
         Chunk.str "Content-Transfer-Encoding: base64\r\n\r\n",
         Chunk.encodedBase64 [104],
         Chunk.closeDelim ""] =
      innerDelims (MimePart.new_multipart "multipart/mixed" [MimePart.new_text [104]]) ∧
    (innerDelims (MimePart.new_multipart "multipart/mixed" [MimePart.new_text [104]]) = [] ∨
      ∃ t, ScopeItems t
        (innerDelims (MimePart.new_multipart "multipart/mixed" [MimePart.new_text [104]]))) :=
  claim_C2_amended (constClassifier EncodingType.base64)
    (MimePart.new_multipart "multipart/mixed" [MimePart.new_text [104]]) _
    (by simp [writePart, writePartLoop, constClassifier, MimePart.new_multipart,
      MimePart.new_text, multipartContentType, alistRemove, alistLookup, alistInsert,
      ContentType.new, ContentType.attrib, ContentType.render, make_boundary,
      openChunks, closeChunks, writeTextPart, renderMimeHeaders, detect_encoding,
      text_is_attachment, HeaderType.write_header, String.join])

/-- C2 (counterexample to the claim as stated): a `multipart/mixed` part
with two text children emits two opening boundary delimiter lines but
only one closing delimiter line, so the number of opening delimiter lines
emitted does not equal the number of closing delimiter lines. -/
theorem claim_C2_counterexample :
    writePart (constClassifier EncodingType.base64)
        (MimePart.new_multipart "multipart/mixed"
          [MimePart.new_text [104], MimePart.new_text [104]]) =
      some [Chunk.str "Content-Type: ",
        Chunk.str "multipart/mixed; boundary=\"\"\r\n",
        Chunk.str "\r\n",
        Chunk.openDelim "",
        Chunk.str "Content-Type: text/plain; charset=\"utf-8\"\r\n",
        Chunk.str "Content-Transfer-Encoding: base64\r\n\r\n",
        Chunk.encodedBase64 [104],
        Chunk.openDelim "",
        Chunk.str "Content-Type: text/plain; charset=\"utf-8\"\r\n",
        Chunk.str "Content-Transfer-Encoding: base64\r\n\r\n",
        Chunk.encodedBase64 [104],
        Chunk.closeDelim ""] ∧
    (delimEvents
        [Chunk.str "Content-Type: ",
         Chunk.str "multipart/mixed; boundary=\"\"\r\n",
         Chunk.str "\r\n",
         Chunk.openDelim "",
         Chunk.str "Content-Type: text/plain; charset=\"utf-8\"\r\n",
         Chunk.str "Content-Transfer-Encoding: base64\r\n\r\n",
         Chunk.encodedBase64 [104],
         Chunk.openDelim "",
         Chunk.str "Content-Type: text/plain; charset=\"utf-8\"\r\n",
         Chunk.str "Content-Transfer-Encoding: base64\r\n\r\n",
         Chunk.encodedBase64 [104],
         Chunk.closeDelim ""]).countP (fun e => e.1) = 2 ∧
    (delimEvents
        [Chunk.str "Content-Type: ",
         Chunk.str "multipart/mixed; boundary=\"\"\r\n",
         Chunk.str "\r\n",
         Chunk.openDelim "",
         Chunk.str "Content-Type: text/plain; charset=\"utf-8\"\r\n",
         Chunk.str "Content-Transfer-Encoding: base64\r\n\r\n",
         Chunk.encodedBase64 [104],
         Chunk.openDelim "",
         Chunk.str "Content-Type: text/plain; charset=\"utf-8\"\r\n",
         Chunk.str "Content-Transfer-Encoding: base64\r\n\r\n",
         Chunk.encodedBase64 [104],
         Chunk.closeDelim ""]).countP (fun e => !e.1) = 1 ∧
    (2 : Nat) ≠ 1 := by
  refine ⟨?_, by decide, by decide, by decide⟩
  simp [writePart, writePartLoop, constClassifier, MimePart.new_multipart,
    MimePart.new_text, multipartContentType, alistRemove, alistLookup, alistInsert,
    ContentType.new, ContentType.attrib, ContentType.render, make_boundary,
    openChunks, closeChunks, writeTextPart, renderMimeHeaders, detect_encoding,
    text_is_attachment, HeaderType.write_header, String.join]

/-- C1: the MIME root serialized by `write_to` follows the §4.2 decision
table.  A custom body set via `body` always wins and is used unchanged;
otherwise: text only is the text part itself; html only the html part
itself; text+html a `multipart/alternative` with children `[text, html]`;
text+attachments a `multipart/mixed` with children `text :: attachments`;
html+attachments a `multipart/mixed` with children `html :: attachments`;
text+html+attachments a `multipart/mixed` whose first child is the
`multipart/alternative` `[text, html]` followed by the attachments as
siblings (never nested inside the alternative group); nothing set gives a
default `text/plain; charset=utf-8` part whose content is the single
newline byte. -/
theorem claim_C1_assembly (b : MessageBuilder) :
    (∀ p, b.body = some p → assembleBody b = p) ∧
    (∀ t, b.body = none → b.text_body = some t → b.html_body = none →
      b.attachments = none → assembleBody b = t) ∧
    (∀ h, b.body = none → b.text_body = none → b.html_body = some h →
      b.attachments = none → assembleBody b = h) ∧
    (∀ t h, b.body = none → b.text_body = some t → b.html_body = some h →
      b.attachments = none →
      assembleBody b =
        MimePart.multipart
          [("Content-Type", HeaderType.contentType ⟨"multipart/alternative", []⟩)]
          [t, h]) ∧
    (∀ t atts, b.body = none → b.text_body = some t → b.html_body = none →
      b.attachments = some atts →
      assembleBody b =
        MimePart.multipart
          [("Content-Type", HeaderType.contentType ⟨"multipart/mixed", []⟩)]
          (t :: atts)) ∧
    (∀ h atts, b.body = none → b.text_body = none → b.html_body = some h →
      b.attachments = some atts →
      assembleBody b =
        MimePart.multipart
          [("Content-Type", HeaderType.contentType ⟨"multipart/mixed", []⟩)]
          (h :: atts)) ∧
    (∀ t h atts, b.body = none → b.text_body = some t → b.html_body = some h →
      b.attachments = some atts →
      assembleBody b =
        MimePart.multipart
          [("Content-Type", HeaderType.contentType ⟨"multipart/mixed", []⟩)]
          (MimePart.multipart
            [("Content-Type", HeaderType.contentType ⟨"multipart/alternative", []⟩)]
            [t, h] :: atts)) ∧
    (b.body = none → b.text_body = none → b.html_body = none → b.attachments = none →
      assembleBody b =
        MimePart.text
          [("Content-Type",
            HeaderType.contentType ⟨"text/plain", [("charset", "utf-8")]⟩)]
          [10]) := by
  refine ⟨?_, ?_, ?_, ?_, ?_, ?_, ?_, ?_⟩
  · intro p hp
    simp [assembleBody, hp]
  · intro t h1 h2 h3 h4
    simp [assembleBody, h1, h2, h3, h4]
  · intro h h1 h2 h3 h4
    simp [assembleBody, h1, h2, h3, h4]
  · intro t h h1 h2 h3 h4
    simp [assembleBody, h1, h2, h3, h4, MimePart.new_multipart, ContentType.new]
  · intro t atts h1 h2 h3 h4
    simp [assembleBody, h1, h2, h3, h4, MimePart.new_multipart, ContentType.new]
  · intro h atts h1 h2 h3 h4
    simp [assembleBody, h1, h2, h3, h4, MimePart.new_multipart, ContentType.new]
  · intro t h atts h1 h2 h3 h4
    simp [assembleBody, h1, h2, h3, h4, MimePart.new_multipart, ContentType.new]
  · intro h1 h2 h3 h4
    simp [assembleBody, h1, h2, h3, h4, MimePart.new_text, ContentType.new,
      ContentType.attrib, alistInsert]

theorem claim_C1_assembly_witness :
    assembleBody
        ⟨[], some (MimePart.new_html [105]), some (MimePart.new_text [104]),
          some [MimePart.new_binary "image/png" [1]], none, false⟩ =
      MimePart.multipart
        [("Content-Type", HeaderType.contentType ⟨"multipart/mixed", []⟩)]
        (MimePart.multipart
          [("Content-Type", HeaderType.contentType ⟨"multipart/alternative", []⟩)]
          [MimePart.new_text [104], MimePart.new_html [105]] ::
          [MimePart.new_binary "image/png" [1]]) :=
  (claim_C1_assembly _).2.2.2.2.2.2.1 (MimePart.new_text [104]) (MimePart.new_html [105])
    [MimePart.new_binary "image/png" [1]] rfl rfl rfl rfl

/-- C9: with no custom body, no text body and no html body but a
non-empty attachments list, `write_to` serializes a `multipart/mixed`
root whose children are exactly the attachments in order. -/
theorem claim_C9_attachments_only (b : MessageBuilder) (atts : List MimePart)
    (h1 : b.body = none) (h2 : b.text_body = none) (h3 : b.html_body = none)
    (h4 : b.attachments = some atts) (_h5 : atts ≠ []) :
    assembleBody b =
      MimePart.multipart
        [("Content-Type", HeaderType.contentType ⟨"multipart/mixed", []⟩)] atts ∧
    ∀ (classify : List Nat → Bool → Bool → EncodingType) (now : String) (out : List Chunk),
      writeTo classify now b = some out →
      ∃ pre body, out = pre ++ body ∧
        writePart classify
          (MimePart.multipart
            [("Content-Type", HeaderType.contentType ⟨"multipart/mixed", []⟩)] atts) =
          some body := by
  have hA : assembleBody b =
      MimePart.multipart
        [("Content-Type", HeaderType.contentType ⟨"multipart/mixed", []⟩)] atts := by
    simp [assembleBody, h1, h2, h3, h4, MimePart.new_multipart, ContentType.new]
  refine ⟨hA, ?_⟩
  intro classify now out h
  simp only [writeTo, Option.map_eq_some'] at h
  obtain ⟨body, hbody, rfl⟩ := h
  rw [hA] at hbody
  exact ⟨_, body, rfl, hbody⟩

theorem claim_C9_attachments_only_witness :
    assembleBody
        ⟨[], none, none, some [MimePart.new_binary "image/png" [1]], none, false⟩ =
      MimePart.multipart
        [("Content-Type", HeaderType.contentType ⟨"multipart/mixed", []⟩)]
        [MimePart.new_binary "image/png" [1]] ∧
    ∀ (classify : List Nat → Bool → Bool → EncodingType) (now : String) (out : List Chunk),
      writeTo classify now
          ⟨[], none, none, some [MimePart.new_binary "image/png" [1]], none, false⟩ =
        some out →
      ∃ pre body, out = pre ++ body ∧
        writePart classify
          (MimePart.multipart
            [("Content-Type", HeaderType.contentType ⟨"multipart/mixed", []⟩)]
            [MimePart.new_binary "image/png" [1]]) =
          some body :=
  claim_C9_attachments_only _ _ rfl rfl rfl rfl (by simp)

/-- C7: `text_body` honors the `flowed` flag set by `format_flowed`: when
the flag is set, the stored text part's Content-Type is `text/plain` with
both `charset=utf-8` and `format=flowed`; when it is not set, the part's
Content-Type is `text/plain` with `charset=utf-8` only. -/
theorem claim_C7_format_flowed (b : MessageBuilder) (v : List Nat) :
    (b.flowed = true →
      ∃ ct, (b.set_text_body v).text_body =
          some (MimePart.text [("Content-Type", HeaderType.contentType ct)] v) ∧
        ct.ctype = "text/plain" ∧
        alistLookup ct.attributes "charset" = some "utf-8" ∧
        alistLookup ct.attributes "format" = some "flowed") ∧
    (b.flowed = false →
      ∃ ct, (b.set_text_body v).text_body =
          some (MimePart.text [("Content-Type", HeaderType.contentType ct)] v) ∧
        ct.ctype = "text/plain" ∧
        alistLookup ct.attributes "charset" = some "utf-8" ∧
        alistLookup ct.attributes "format" = none) := by
  constructor
  · intro hf
    refine ⟨⟨"text/plain", [("charset", "utf-8"), ("format", "flowed")]⟩, ?_, rfl, ?_, ?_⟩
    · simp [MessageBuilder.set_text_body, hf, MimePart.new_text_flowed, ContentType.new,
        ContentType.attrib, alistInsert]
      all_goals decide
    · decide
    · decide
  · intro hf
    refine ⟨⟨"text/plain", [("charset", "utf-8")]⟩, ?_, rfl, ?_, ?_⟩
    · simp [MessageBuilder.set_text_body, hf, MimePart.new_text, ContentType.new,
        ContentType.attrib, alistInsert]
    · decide
    · decide

theorem claim_C7_format_flowed_witness :
    ∃ ct, ((MessageBuilder.new.format_flowed).set_text_body [104]).text_body =
        some (MimePart.text [("Content-Type", HeaderType.contentType ct)] [104]) ∧
      ct.ctype = "text/plain" ∧
      alistLookup ct.attributes "charset" = some "utf-8" ∧
      alistLookup ct.attributes "format" = some "flowed" :=
  (claim_C7_format_flowed (MessageBuilder.new.format_flowed) [104]).1 rfl

theorem message_id_loop_final_pos (ids : List String) :
    ∀ bw : Nat, ids ≠ [] → (message_id_loop ids bw).2 ≥ 2 := by
  induction ids with
  | nil => intro bw h; exact absurd rfl h
  | cons i rest ih =>
    intro bw _
    cases rest with
    | nil =>
      simp [message_id_loop]
    | cons j rest2 =>
      by_cases hb : bw + i.length + 2 ≥ 76
      · simp only [message_id_loop, if_pos hb]
        exact ih 0 (by simp)
      · simp only [message_id_loop, if_neg hb]
        exact ih (bw + i.length + 2) (by simp)

/-- C8 (amended): `Date::write_header` always emits exactly the CRLF
terminator and returns 0, and `MessageId::write_header` emits output
ending in CRLF and returns 0 (no bytes trail after the final terminator)
for every non-empty id list at any initial column, and for an empty list
when bytes were already written on the line; the Message-ID loop folds
with CRLF+TAB after an id exactly when the running column count has
reached 76 and further ids remain, resetting the counter to 0 after the
fold.  The only deviation from the claim as stated is the empty id list
at initial column 0, which emits nothing (see the counterexample). -/
theorem claim_C8_amended :
    (∀ (ids : List String) (bw : Nat), ids ≠ [] →
      (∃ s, (MessageId.write_header ids bw).1 = s ++ "\r\n") ∧
      (MessageId.write_header ids bw).2 = 0) ∧
    (∀ bw : Nat, 0 < bw →
      (MessageId.write_header [] bw).1 = "\r\n" ∧ (MessageId.write_header [] bw).2 = 0) ∧
    (∀ (d : Int) (bw : Nat), Date.write_header d bw = ("\r\n", 0)) ∧
    (∀ (i j : String) (rest : List String) (bw : Nat), bw + i.length + 2 ≥ 76 →
      message_id_loop (i :: j :: rest) bw =
        ("<" ++ i ++ ">" ++ "\r\n\t" ++ (message_id_loop (j :: rest) 0).1,
          (message_id_loop (j :: rest) 0).2)) ∧
    (∀ (i j : String) (rest : List String) (bw : Nat), bw + i.length + 2 < 76 →
      message_id_loop (i :: j :: rest) bw =
        ("<" ++ i ++ ">" ++ (message_id_loop (j :: rest) (bw + i.length + 2)).1,
          (message_id_loop (j :: rest) (bw + i.length + 2)).2)) := by
  refine ⟨?_, ?_, ?_, ?_, ?_⟩
  · intro ids bw hne
    have hpos := message_id_loop_final_pos ids bw hne
    constructor
    · refine ⟨(message_id_loop ids bw).1, ?_⟩
      simp only [MessageId.write_header]
      rw [if_pos (by omega)]
    · rfl
  · intro bw hbw
    constructor
    · simp only [MessageId.write_header, message_id_loop]
      rw [if_pos hbw]
      rfl
    · rfl
  · intro d bw
    rfl
  · intro i j rest bw h76
    simp only [message_id_loop, if_pos h76]
  · intro i j rest bw h76
    simp only [message_id_loop, if_neg (by omega : ¬ bw + i.length + 2 ≥ 76)]

theorem claim_C8_amended_witness :
    (∃ s, (MessageId.write_header ["abc"] 9).1 = s ++ "\r\n") ∧
    (MessageId.write_header ["abc"] 9).2 = 0 :=
  claim_C8_amended.1 ["abc"] 9 (by simp)

/-- C8 (counterexample to the claim as stated): for the Message-ID header
value with an empty id list and initial column count 0, `write_header`
emits nothing at all — in particular no trailing CRLF line terminator. -/
theorem claim_C8_counterexample :
    (MessageId.write_header [] 0).1 = "" ∧
    (MessageId.write_header [] 0).2 = 0 ∧
    ¬ ∃ s, (MessageId.write_header [] 0).1 = s ++ "\r\n" := by
  refine ⟨rfl, rfl, ?_⟩
  rintro ⟨s, hs⟩
  rw [show (MessageId.write_header [] 0).1 = "" from rfl] at hs
  have hlen := congrArg String.length hs
  simp only [String.length_append] at hlen
  have h2 : ("\r\n" : String).length = 2 := rfl
  have h0 : ("" : String).length = 0 := rfl
  rw [h2, h0] at hlen
  omega

/-- The `has_date` / `has_message_id` flags computed by the top-level
header loop are exactly "some header map entry carries that name". -/
theorem writeToHeaders_flags : ∀ (hs : List (String × List HeaderType)) (d m : Bool),
    (writeToHeaders hs d m).1 =
      (d || hs.any (fun e => e.1 == "Date"),
        m || hs.any (fun e => e.1 == "Message-ID")) := by
  intro hs
  induction hs with
  | nil => intro d m; simp [writeToHeaders]
  | cons e rest ih =>
    intro d m
    obtain ⟨n, vs⟩ := e
    by_cases h1 : n = "Date"
    · subst h1
      have hne : (("Date" : String) == "Message-ID") = false := by decide
      cases d <;> simp [writeToHeaders, ih, hne, List.any_cons]
    · have h1f : (n == "Date") = false := by simpa using h1
      by_cases h2 : n = "Message-ID"
      · subst h2
        cases m <;> simp [writeToHeaders, ih, h1f, List.any_cons]
      · have h2f : (n == "Message-ID") = false := by simpa using h2
        simp [writeToHeaders, ih, h1f, h2f, List.any_cons]

/-- The chunk part of the top-level header loop: every value of every
entry, in map order, as a tagged header line. -/
theorem writeToHeaders_chunks : ∀ (hs : List (String × List HeaderType)) (d m : Bool),
    (writeToHeaders hs d m).2 =
      (hs.map (fun e => e.2.map (fun v =>
        Chunk.header e.1 (HeaderType.write_header v (e.1.length + 2)).1))).flatten := by
  intro hs
  induction hs with
  | nil => intro d m; simp [writeToHeaders]
  | cons e rest ih =>
    intro d m
    obtain ⟨n, vs⟩ := e
    simp [writeToHeaders, ih]

/-- Counting tagged header lines over a run of lines under one name. -/
theorem countHeaderNamed_headerLines (nm n : String) (ls : List String) :
    countHeaderNamed nm (ls.map (fun v => Chunk.header n v)) =
      if n == nm then ls.length else 0 := by
  induction ls with
  | nil => cases hn : n == nm <;> simp [countHeaderNamed, hn]
  | cons v rest ih =>
    simp only [countHeaderNamed, List.map_cons, List.countP_cons] at ih ⊢
    rw [ih]
    by_cases hn : (n == nm) = true
    · simp [hn]
    · have hn' : (n == nm) = false := by simpa using hn
      simp [hn']

/-- Counting top-level header lines by name: each entry whose name
matches contributes one line per value. -/
theorem countHeaderNamed_writeToHeaders (nm : String) :
    ∀ (hs : List (String × List HeaderType)) (d m : Bool),
      countHeaderNamed nm (writeToHeaders hs d m).2 =
        ((hs.filter (fun e => e.1 == nm)).map (fun e => e.2.length)).sum := by
  intro hs
  induction hs with
  | nil => intro d m; simp [writeToHeaders, countHeaderNamed]
  | cons e rest ih =>
    intro d m
    obtain ⟨n, vs⟩ := e
    have hstep : countHeaderNamed nm ((writeToHeaders ((n, vs) :: rest) d m)).2 =
        countHeaderNamed nm (vs.map (fun v =>
          Chunk.header n (HeaderType.write_header v (n.length + 2)).1)) +
          countHeaderNamed nm (writeToHeaders rest
            (if !d && n == "Date" then true else d)
            (if !d && n == "Date" then m
              else if !m && n == "Message-ID" then true else m)).2 := by
      simp [writeToHeaders, countHeaderNamed, List.countP_append]
    rw [hstep, ih]
    have hmm : vs.map (fun v => Chunk.header n (HeaderType.write_header v (n.length + 2)).1)
        = (vs.map (fun v => (HeaderType.write_header v (n.length + 2)).1)).map
            (fun s => Chunk.header n s) := by
      simp [List.map_map]
    rw [hmm, countHeaderNamed_headerLines]
    by_cases hn : (n == nm) = true
    · simp [List.filter_cons, hn]
    · have hn' : (n == nm) = false := by simpa using hn
      simp [List.filter_cons, hn']

theorem countHeaderNamed_nil (nm : String) : countHeaderNamed nm [] = 0 := rfl

theorem countHeaderNamed_append (nm : String) (a b : List Chunk) :
    countHeaderNamed nm (a ++ b) = countHeaderNamed nm a + countHeaderNamed nm b := by
  simp [countHeaderNamed, List.countP_append]

theorem countHeaderNamed_cons_str (nm : String) (t : String) (l : List Chunk) :
    countHeaderNamed nm (Chunk.str t :: l) = countHeaderNamed nm l := by
  simp [countHeaderNamed, List.countP_cons]

theorem countHeaderNamed_renderMimeHeaders (nm : String) (hs : List (String × HeaderType)) :
    countHeaderNamed nm (renderMimeHeaders hs) = 0 := by
  induction hs with
  | nil => rfl
  | cons e rest ih =>
    simp only [renderMimeHeaders, List.map_cons] at ih ⊢
    rw [show (Chunk.str (e.1 ++ ": " ++ (HeaderType.write_header e.2 (e.1.length + 2)).1) ::
      List.map (fun h => Chunk.str (h.1 ++ ": " ++ (HeaderType.write_header h.2
        (h.1.length + 2)).1)) rest) = [Chunk.str (e.1 ++ ": " ++
        (HeaderType.write_header e.2 (e.1.length + 2)).1)] ++
      List.map (fun h => Chunk.str (h.1 ++ ": " ++ (HeaderType.write_header h.2
        (h.1.length + 2)).1)) rest from rfl]
    rw [countHeaderNamed_append, ih]
    rfl

theorem countHeaderNamed_detect_encoding (nm : String)
    (classify : List Nat → Bool → Bool → EncodingType) (input : List Nat) (is_body : Bool) :
    countHeaderNamed nm (detect_encoding classify input is_body) = 0 := by
  unfold detect_encoding
  cases classify input false is_body <;> rfl

theorem countHeaderNamed_openChunks (nm : String) (b : Option String) :
    countHeaderNamed nm (openChunks b) = 0 := by
  cases b <;> rfl

theorem countHeaderNamed_closeChunks (nm : String) (b : Option String) :
    countHeaderNamed nm (closeChunks b) = 0 := by
  cases b <;> rfl

theorem countHeaderNamed_writeTextPart (nm : String)
    (classify : List Nat → Bool → Bool → EncodingType)
    (hs : List (String × HeaderType)) (content : List Nat) :
    countHeaderNamed nm (writeTextPart classify hs content) = 0 := by
  unfold writeTextPart
  rw [countHeaderNamed_append, countHeaderNamed_renderMimeHeaders,
    countHeaderNamed_detect_encoding]

theorem countHeaderNamed_writeBinaryPart (nm : String)
    (classify : List Nat → Bool → Bool → EncodingType)
    (hs : List (String × HeaderType)) (content : List Nat) :
    countHeaderNamed nm (writeBinaryPart classify hs content) = 0 := by
  simp only [writeBinaryPart]
  by_cases hfl : (binary_flags hs false false).1
  · rw [if_neg (by simp [hfl])]
    rw [countHeaderNamed_append, countHeaderNamed_renderMimeHeaders,
      countHeaderNamed_detect_encoding]
  · rw [if_pos (by simp [hfl])]
    rw [countHeaderNamed_append, countHeaderNamed_renderMimeHeaders]
    rfl

theorem countHeaderNamed_multipartContentType (nm : String) (hs : List (String × HeaderType))
    (r : List Chunk × Option String × List (String × HeaderType))
    (h : multipartContentType hs = some r) : countHeaderNamed nm r.1 = 0 := by
  simp only [multipartContentType] at h
  rcases hv : (alistRemove hs "Content-Type").1 with _ | v
  · simp only [hv, Option.some.injEq] at h
    subst h
    rfl
  · cases v with
    | contentType ct =>
      simp only [hv, Option.some.injEq] at h
      subst h
      rfl
    | raw rv =>
      rcases hrb : rawFindBoundary rv with _ | tok <;>
        simp only [hv, hrb, Option.some.injEq] at h <;> subst h <;> rfl
    | messageId ids => simp [hv] at h
    | date d => simp [hv] at h
    | other s => simp [hv] at h

/-- The MIME body writer never emits a tagged top-level header line: the
part headers inside the body are written as plain text (in the source
both are just bytes; the tag marks the message's own header section). -/
theorem writePartLoop_no_header (nm : String)
    (classify : List Nat → Bool → Bool → EncodingType) :
    ∀ (it : List MimePart) (b : Option String)
      (stack : List (List MimePart × Option String)) (chunks : List Chunk),
      writePartLoop classify it b stack = some chunks →
      countHeaderNamed nm chunks = 0 := by
  intro it b stack
  induction it, b, stack using writePartLoop.induct classify with
  | case1 b1 =>
    intro chunks h
    simp only [writePartLoop, Option.some.injEq] at h
    subst h
    exact countHeaderNamed_closeChunks nm b1
  | case2 b1 pit pb rest ih =>
    intro chunks h
    simp only [writePartLoop, Option.map_eq_some'] at h
    obtain ⟨tail, htail, rfl⟩ := h
    rw [countHeaderNamed_append, countHeaderNamed_closeChunks, ih tail htail]
  | case3 hs content it b1 stack ih =>
    intro chunks h
    simp only [writePartLoop, Option.map_eq_some'] at h
    obtain ⟨tail, htail, rfl⟩ := h
    rw [countHeaderNamed_append, countHeaderNamed_append, countHeaderNamed_openChunks,
      countHeaderNamed_writeTextPart, ih tail htail]
  | case4 hs content it b1 stack ih =>
    intro chunks h
    simp only [writePartLoop, Option.map_eq_some'] at h
    obtain ⟨tail, htail, rfl⟩ := h
    rw [countHeaderNamed_append, countHeaderNamed_append, countHeaderNamed_openChunks,
      countHeaderNamed_writeBinaryPart, ih tail htail]
  | case5 hs parts it b1 stack hmct =>
    intro chunks h
    simp [writePartLoop, hmct] at h
  | case6 hs parts it b1 stack ctChunks newB restHeaders hmct ih =>
    intro chunks h
    simp only [writePartLoop, hmct, Option.map_eq_some'] at h
    obtain ⟨tail, htail, rfl⟩ := h
    have hct := countHeaderNamed_multipartContentType nm hs (ctChunks, newB, restHeaders) hmct
    have htail0 : countHeaderNamed nm tail = 0 := by
      rcases b1 with _ | tb
      · simp at htail ih
        exact ih tail htail
      · simp at htail ih
        exact ih tail htail
    have hct2 : countHeaderNamed nm ctChunks = 0 := hct
    simp only [countHeaderNamed_append, countHeaderNamed_openChunks,
      countHeaderNamed_cons_str, countHeaderNamed_renderMimeHeaders, hct2, htail0,
      countHeaderNamed_nil, Nat.add_zero, Nat.zero_add]

/-- C3: when the header map contains neither an explicit `Message-ID`
nor an explicit `Date` entry, `write_to` emits exactly one Message-ID
header line and exactly one Date header line, both after all explicitly
supplied headers, Message-ID first — the Message-ID synthesized as
`<token>` from the boundary-token generator and the Date as the
formatted current local time; and when either header was explicitly
supplied, that header is not synthesized: the output carries exactly as
many lines under that name as the entry has explicitly supplied values,
and no more.  (Header lines are counted over the message's own header
section; MIME part headers belong to the serialized body.) -/
theorem claim_C3_synthesized_headers :
    (∀ (classify : List Nat → Bool → Bool → EncodingType) (now : String)
      (b : MessageBuilder) (out : List Chunk),
      (∀ e ∈ b.headers, e.1 ≠ "Message-ID" ∧ e.1 ≠ "Date") →
      writeTo classify now b = some out →
      ∃ body,
        out = (writeToHeaders b.headers false false).2 ++
          ([Chunk.header "Message-ID" ("<" ++ make_boundary ++ ">\r\n"),
            Chunk.header "Date" (now ++ "\r\n")] ++ body) ∧
        writePart classify (assembleBody b) = some body ∧
        countHeaderNamed "Message-ID" out = 1 ∧
        countHeaderNamed "Date" out = 1) ∧
    (∀ (classify : List Nat → Bool → Bool → EncodingType) (now : String)
      (b : MessageBuilder) (out : List Chunk) (vs : List HeaderType),
      b.headers.filter (fun e => e.1 == "Message-ID") = [("Message-ID", vs)] →
      writeTo classify now b = some out →
      countHeaderNamed "Message-ID" out = vs.length) ∧
    (∀ (classify : List Nat → Bool → Bool → EncodingType) (now : String)
      (b : MessageBuilder) (out : List Chunk) (vs : List HeaderType),
      b.headers.filter (fun e => e.1 == "Date") = [("Date", vs)] →
      writeTo classify now b = some out →
      countHeaderNamed "Date" out = vs.length) := by
  refine ⟨?_, ?_, ?_⟩
  · intro classify now b out habs h
    have hanyD : b.headers.any (fun e => e.1 == "Date") = false := by
      simp only [List.any_eq_false]
      intro e he
      simpa using (habs e he).2
    have hanyM : b.headers.any (fun e => e.1 == "Message-ID") = false := by
      simp only [List.any_eq_false]
      intro e he
      simpa using (habs e he).1
    have hflags := writeToHeaders_flags b.headers false false
    rw [hanyD, hanyM] at hflags
    have hD : ((writeToHeaders b.headers false false).1).1 = false := by
      rw [hflags]
      rfl
    have hM : ((writeToHeaders b.headers false false).1).2 = false := by
      rw [hflags]
      rfl
    simp only [writeTo, Option.map_eq_some'] at h
    obtain ⟨body, hbody, rfl⟩ := h
    have hfilterM : b.headers.filter (fun e => e.1 == "Message-ID") = [] := by
      simp only [List.filter_eq_nil_iff]
      intro e he
      simpa using (habs e he).1
    have hfilterD : b.headers.filter (fun e => e.1 == "Date") = [] := by
      simp only [List.filter_eq_nil_iff]
      intro e he
      simpa using (habs e he).2
    have hbody0M : countHeaderNamed "Message-ID" body = 0 :=
      writePartLoop_no_header "Message-ID" classify [assembleBody b] none [] body hbody
    have hbody0D : countHeaderNamed "Date" body = 0 :=
      writePartLoop_no_header "Date" classify [assembleBody b] none [] body hbody
    have hexplM : countHeaderNamed "Message-ID" (writeToHeaders b.headers false false).2 = 0 := by
      rw [countHeaderNamed_writeToHeaders, hfilterM]
      rfl
    have hexplD : countHeaderNamed "Date" (writeToHeaders b.headers false false).2 = 0 := by
      rw [countHeaderNamed_writeToHeaders, hfilterD]
      rfl
    refine ⟨body, ?_, hbody, ?_, ?_⟩
    · simp [hD, hM]
    · simp only [hD, hM, Bool.false_eq_true, if_false, countHeaderNamed_append, hexplM,
        hbody0M]
      rfl
    · simp only [hD, hM, Bool.false_eq_true, if_false, countHeaderNamed_append, hexplD,
        hbody0D]
      rfl
  · intro classify now b out vs hfilter h
    have hmem : ("Message-ID", vs) ∈ b.headers := by
      have hm : ("Message-ID", vs) ∈
          b.headers.filter (fun e => e.1 == "Message-ID") := by
        rw [hfilter]
        simp
      exact (List.mem_filter.mp hm).1
    have hanyM : b.headers.any (fun e => e.1 == "Message-ID") = true :=
      List.any_eq_true.mpr ⟨("Message-ID", vs), hmem, rfl⟩
    have hflags := writeToHeaders_flags b.headers false false
    rw [hanyM] at hflags
    have hM : ((writeToHeaders b.headers false false).1).2 = true := by
      rw [hflags]
      simp
    simp only [writeTo, Option.map_eq_some'] at h
    obtain ⟨body, hbody, rfl⟩ := h
    have hbody0 : countHeaderNamed "Message-ID" body = 0 :=
      writePartLoop_no_header "Message-ID" classify [assembleBody b] none [] body hbody
    have hexpl : countHeaderNamed "Message-ID"
        (writeToHeaders b.headers false false).2 = vs.length := by
      rw [countHeaderNamed_writeToHeaders, hfilter]
      simp
    have hdt0 : ∀ l : List Chunk,
        l = (if ((writeToHeaders b.headers false false).1).1 then []
          else [Chunk.header "Date" (now ++ "\r\n")]) →
        countHeaderNamed "Message-ID" l = 0 := by
      intro l hl
      by_cases hd : ((writeToHeaders b.headers false false).1).1
      · rw [hl, if_pos hd]
        rfl
      · rw [hl, if_neg hd]
        rfl
    simp only [hM, if_true, countHeaderNamed_append, hexpl, hbody0, hdt0 _ rfl,
      countHeaderNamed_nil, Nat.add_zero, Nat.zero_add]
  · intro classify now b out vs hfilter h
    have hmem : ("Date", vs) ∈ b.headers := by
      have hm : ("Date", vs) ∈ b.headers.filter (fun e => e.1 == "Date") := by
        rw [hfilter]
        simp
      exact (List.mem_filter.mp hm).1
    have hanyD : b.headers.any (fun e => e.1 == "Date") = true :=
      List.any_eq_true.mpr ⟨("Date", vs), hmem, rfl⟩
    have hflags := writeToHeaders_flags b.headers false false
    rw [hanyD] at hflags
    have hD : ((writeToHeaders b.headers false false).1).1 = true := by
      rw [hflags]
      rfl
    simp only [writeTo, Option.map_eq_some'] at h
    obtain ⟨body, hbody, rfl⟩ := h
    have hbody0 : countHeaderNamed "Date" body = 0 :=
      writePartLoop_no_header "Date" classify [assembleBody b] none [] body hbody
    have hexpl : countHeaderNamed "Date"
        (writeToHeaders b.headers false false).2 = vs.length := by
      rw [countHeaderNamed_writeToHeaders, hfilter]
      simp
    have hmid0 : ∀ l : List Chunk,
        l = (if ((writeToHeaders b.headers false false).1).2 then []
          else [Chunk.header "Message-ID" ("<" ++ make_boundary ++ ">\r\n")]) →
        countHeaderNamed "Date" l = 0 := by
      intro l hl
      by_cases hm2 : ((writeToHeaders b.headers false false).1).2
      · rw [hl, if_pos hm2]
        rfl
      · rw [hl, if_neg hm2]
        rfl
    simp only [hD, if_true, countHeaderNamed_append, hexpl, hbody0, hmid0 _ rfl,
      countHeaderNamed_nil, Nat.add_zero, Nat.zero_add]

/-- C10: `Date::write_header` ignores the stored timestamp and writes
only the line terminator, so an explicitly supplied Date header is
emitted as the line `Date: \r\n` with an empty value — while its presence
still suppresses the synthesized Date header (exactly one Date line in
the output). -/
theorem claim_C10_explicit_date (classify : List Nat → Bool → Bool → EncodingType)
    (now : String) (b : MessageBuilder) (out : List Chunk) (d : Int)
    (hfilter : b.headers.filter (fun e => e.1 == "Date") = [("Date", [HeaderType.date d])])
    (h : writeTo classify now b = some out) :
    (∀ (d2 : Int) (bw : Nat), Date.write_header d2 bw = ("\r\n", 0)) ∧
    countHeaderNamed "Date" out = 1 ∧
    Chunk.header "Date" "\r\n" ∈ out := by
  have hmem : ("Date", [HeaderType.date d]) ∈ b.headers := by
    have hm : ("Date", [HeaderType.date d]) ∈
        b.headers.filter (fun e => e.1 == "Date") := by
      rw [hfilter]
      simp
    exact (List.mem_filter.mp hm).1
  have hanyD : b.headers.any (fun e => e.1 == "Date") = true :=
    List.any_eq_true.mpr ⟨("Date", [HeaderType.date d]), hmem, rfl⟩
  have hflags := writeToHeaders_flags b.headers false false
  rw [hanyD] at hflags
  have hD : ((writeToHeaders b.headers false false).1).1 = true := by
    rw [hflags]
    rfl
  simp only [writeTo, Option.map_eq_some'] at h
  obtain ⟨body, hbody, rfl⟩ := h
  have hbody0D : countHeaderNamed "Date" body = 0 :=
    writePartLoop_no_header "Date" classify [assembleBody b] none [] body hbody
  have hexplD : countHeaderNamed "Date" (writeToHeaders b.headers false false).2 = 1 := by
    rw [countHeaderNamed_writeToHeaders, hfilter]
    rfl
  have hmid0 : ∀ l : List Chunk,
      l = (if ((writeToHeaders b.headers false false).1).2 then []
        else [Chunk.header "Message-ID" ("<" ++ make_boundary ++ ">\r\n")]) →
      countHeaderNamed "Date" l = 0 := by
    intro l hl
    by_cases hm : ((writeToHeaders b.headers false false).1).2
    · rw [hl, if_pos hm]
      rfl
    · rw [hl, if_neg hm]
      rfl
  have hchunkmem : Chunk.header "Date" "\r\n" ∈ (writeToHeaders b.headers false false).2 := by
    rw [writeToHeaders_chunks]
    refine List.mem_flatten.mpr ⟨[Chunk.header "Date" "\r\n"], ?_, by simp⟩
    refine List.mem_map.mpr ⟨("Date", [HeaderType.date d]), hmem, ?_⟩
    rfl
  refine ⟨fun _ _ => rfl, ?_, ?_⟩
  · simp only [hD, if_true, countHeaderNamed_append, hexplD, hbody0D,
      hmid0 _ rfl, countHeaderNamed_nil]
  · simp [List.mem_append, hchunkmem]

theorem claim_C3_synthesized_headers_witness :
    (∃ body,
      [Chunk.header "Message-ID" "<>\r\n",
        Chunk.header "Date" "NOW\r\n",
        Chunk.str "Content-Type: text/plain; charset=\"utf-8\"\r\n",
        Chunk.str "Content-Transfer-Encoding: base64\r\n\r\n",
        Chunk.encodedBase64 [10]] =
        (writeToHeaders MessageBuilder.new.headers false false).2 ++
          ([Chunk.header "Message-ID" ("<" ++ make_boundary ++ ">\r\n"),
            Chunk.header "Date" ("NOW" ++ "\r\n")] ++ body) ∧
      writePart (constClassifier EncodingType.base64) (assembleBody MessageBuilder.new) =
        some body ∧
      countHeaderNamed "Message-ID"
        [Chunk.header "Message-ID" "<>\r\n",
          Chunk.header "Date" "NOW\r\n",
          Chunk.str "Content-Type: text/plain; charset=\"utf-8\"\r\n",
          Chunk.str "Content-Transfer-Encoding: base64\r\n\r\n",
          Chunk.encodedBase64 [10]] = 1 ∧
      countHeaderNamed "Date"
        [Chunk.header "Message-ID" "<>\r\n",
          Chunk.header "Date" "NOW\r\n",
          Chunk.str "Content-Type: text/plain; charset=\"utf-8\"\r\n",
          Chunk.str "Content-Transfer-Encoding: base64\r\n\r\n",
          Chunk.encodedBase64 [10]] = 1) ∧
    countHeaderNamed "Message-ID"
      [Chunk.header "Message-ID" "<id1>\r\n",
        Chunk.header "Date" "NOW\r\n",
        Chunk.str "Content-Type: text/plain; charset=\"utf-8\"\r\n",
        Chunk.str "Content-Transfer-Encoding: base64\r\n\r\n",
        Chunk.encodedBase64 [10]] = 1 :=
  ⟨claim_C3_synthesized_headers.1 (constClassifier EncodingType.base64) "NOW"
    MessageBuilder.new _
    (by simp [MessageBuilder.new])
    (by simp [writeTo, writeToHeaders, writePart, writePartLoop, assembleBody,
      MessageBuilder.new, MimePart.new_text, constClassifier, make_boundary, openChunks,
      closeChunks, writeTextPart, renderMimeHeaders, detect_encoding, text_is_attachment,
      HeaderType.write_header, ContentType.render, ContentType.new, ContentType.attrib,
      alistInsert, String.join]),
  claim_C3_synthesized_headers.2.1 (constClassifier EncodingType.base64) "NOW"
    (MessageBuilder.new.message_id ["id1"]) _ [HeaderType.messageId ["id1"]]
    (by simp [MessageBuilder.new, MessageBuilder.message_id, MessageBuilder.header,
      headerEntryPush])
    (by simp [writeTo, writeToHeaders, writePart, writePartLoop, assembleBody,
      MessageBuilder.new, MessageBuilder.message_id, MessageBuilder.header,
      headerEntryPush, MimePart.new_text, constClassifier, make_boundary, openChunks,
      closeChunks, writeTextPart, renderMimeHeaders, detect_encoding, text_is_attachment,
      HeaderType.write_header, MessageId.write_header, message_id_loop,
      ContentType.render, ContentType.new, ContentType.attrib, alistInsert, String.join])⟩

theorem claim_C10_explicit_date_witness :
    (∀ (d2 : Int) (bw : Nat), Date.write_header d2 bw = ("\r\n", 0)) ∧
    countHeaderNamed "Date"
      [Chunk.header "Date" "\r\n",
        Chunk.header "Message-ID" "<>\r\n",
        Chunk.str "Content-Type: text/plain; charset=\"utf-8\"\r\n",
        Chunk.str "Content-Transfer-Encoding: base64\r\n\r\n",
        Chunk.encodedBase64 [10]] = 1 ∧
    Chunk.header "Date" "\r\n" ∈
      [Chunk.header "Date" "\r\n",
        Chunk.header "Message-ID" "<>\r\n",
        Chunk.str "Content-Type: text/plain; charset=\"utf-8\"\r\n",
        Chunk.str "Content-Transfer-Encoding: base64\r\n\r\n",
        Chunk.encodedBase64 [10]] :=
  claim_C10_explicit_date (constClassifier EncodingType.base64) "NOW"
    (MessageBuilder.new.date 42) _ 42
    (by simp [MessageBuilder.new, MessageBuilder.date, MessageBuilder.header,
      headerEntryPush])
    (by simp [writeTo, writeToHeaders, writePart, writePartLoop, assembleBody,
      MessageBuilder.new, MessageBuilder.date, MessageBuilder.header, headerEntryPush,
      MimePart.new_text, constClassifier, make_boundary, openChunks, closeChunks,
      writeTextPart, renderMimeHeaders, detect_encoding, text_is_attachment,
      HeaderType.write_header, Date.write_header, ContentType.render, ContentType.new,
      ContentType.attrib, alistInsert, String.join])

/-- The second flag of the Binary header scan coincides with the
attachment flag of the Text header scan (a name cannot be both
`Content-Type` and `Content-Disposition`). -/
theorem binary_flags_snd : ∀ (hs : List (String × HeaderType)) (t a : Bool),
    (binary_flags hs t a).2 = text_is_attachment hs a := by
  intro hs
  induction hs with
  | nil => intro t a; rfl
  | cons e rest ih =>
    intro t a
    obtain ⟨n, v⟩ := e
    by_cases hct : n = "Content-Type"
    · subst hct
      have hcd : (("Content-Type" : String) == "Content-Disposition") = false := by decide
      cases t <;> cases a <;> simp [binary_flags, text_is_attachment, hcd, ih]
    · have hctf : (n == "Content-Type") = false := by simpa using hct
      by_cases hcd : n = "Content-Disposition"
      · subst hcd
        cases t <;> cases a <;> simp [binary_flags, text_is_attachment, hctf, ih]
      · have hcdf : (n == "Content-Disposition") = false := by simpa using hcd
        cases t <;> cases a <;> simp [binary_flags, text_is_attachment, hctf, hcdf, ih]

theorem renderMimeHeaders_no_base64 (hs : List (String × HeaderType)) :
    (renderMimeHeaders hs).all (fun ch => !chunkIsBase64 ch) = true := by
  induction hs with
  | nil => rfl
  | cons e rest ih =>
    simp only [renderMimeHeaders, List.map_cons, List.all_cons] at ih ⊢
    simp only [chunkIsBase64, Bool.not_false, Bool.true_and]
    exact ih

/-- C5: a `Binary` leaf whose Content-Type is not textual (or absent, or
not a structured content type) is always emitted with
`Content-Transfer-Encoding: base64` and a base64 body regardless of the
classifier; a `Binary` leaf with a textual Content-Type is written
exactly like a `Text` leaf with the same headers and payload, so it is
base64-encoded only when the classifier selects Base64 (never as a
forced fallback). -/
theorem claim_C5_binary_encoding (classify : List Nat → Bool → Bool → EncodingType)
    (hs : List (String × HeaderType)) (c : List Nat) :
    ((binary_flags hs false false).1 = false →
      writePartLoop classify [MimePart.binary hs c] none [] =
        some (renderMimeHeaders hs ++
          [Chunk.str "Content-Transfer-Encoding: base64\r\n\r\n",
            Chunk.encodedBase64 c])) ∧
    ((binary_flags hs false false).1 = true →
      writePartLoop classify [MimePart.binary hs c] none [] =
        writePartLoop classify [MimePart.text hs c] none [] ∧
      (classify c false (!(binary_flags hs false false).2) ≠ EncodingType.base64 →
        ∀ chunks, writePartLoop classify [MimePart.binary hs c] none [] = some chunks →
          chunks.all (fun ch => !chunkIsBase64 ch) = true)) := by
  have heval : writePartLoop classify [MimePart.binary hs c] none [] =
      some (writeBinaryPart classify hs c) := by
    simp [writePartLoop, openChunks, closeChunks]
  have hevalT : writePartLoop classify [MimePart.text hs c] none [] =
      some (writeTextPart classify hs c) := by
    simp [writePartLoop, openChunks, closeChunks]
  constructor
  · intro hfl
    rw [heval]
    simp [writeBinaryPart, hfl]
  · intro hfl
    have heq : writeBinaryPart classify hs c = writeTextPart classify hs c := by
      simp [writeBinaryPart, writeTextPart, hfl, binary_flags_snd]
    constructor
    · rw [heval, hevalT, heq]
    · intro hcl chunks hchunks
      rw [heval] at hchunks
      obtain rfl : chunks = writeBinaryPart classify hs c := by
        injection hchunks.symm
      rw [heq]
      rw [binary_flags_snd] at hcl
      simp only [writeTextPart, List.all_append, renderMimeHeaders_no_base64,
        Bool.true_and]
      unfold detect_encoding
      rcases hc : classify c false (!text_is_attachment hs false) with _ | _ | _
      · exact absurd hc hcl
      · simp [chunkIsBase64]
      · simp [chunkIsBase64]

theorem claim_C5_binary_encoding_witness :
    writePartLoop (constClassifier EncodingType.sevenBit)
        [MimePart.binary
          [("Content-Type", HeaderType.contentType (ContentType.new "image/png"))] [7]]
        none [] =
      some (renderMimeHeaders
          [("Content-Type", HeaderType.contentType (ContentType.new "image/png"))] ++
        [Chunk.str "Content-Transfer-Encoding: base64\r\n\r\n",
          Chunk.encodedBase64 [7]]) :=
  (claim_C5_binary_encoding (constClassifier EncodingType.sevenBit)
    [("Content-Type", HeaderType.contentType (ContentType.new "image/png"))] [7]).1
    (by decide)

/-- The 7-bit normalization loop of the source equals the claim's
description: every `\n` byte not preceded by `\r` becomes `\r\n`, all
other bytes are unchanged, in order. -/
theorem normalize_loop_eq_claimNormalize : ∀ input : List Nat,
    normalize_loop input 0 = claimNormalize input := by
  have hgen : ∀ (input : List Nat) (prev : Nat),
      normalize_loop input prev =
        ((input.zip (prev :: input)).map
          (fun p => if p.1 = 10 ∧ p.2 ≠ 13 then [13, 10] else [p.1])).flatten := by
    intro input
    induction input with
    | nil => intro prev; rfl
    | cons ch rest ih =>
      intro prev
      simp only [normalize_loop, List.zip_cons_cons, List.map_cons, List.flatten_cons, ih]
      by_cases hc : ch = 10 ∧ prev ≠ 13
      · simp [hc]
      · simp [hc]
  intro input
  rw [hgen, claimNormalize]

/-- C6: when the classifier selects SevenBit for a text leaf that is not
marked as an attachment by its Content-Disposition header, the emitted
body is the payload with every `\n` not preceded by `\r` rewritten to
`\r\n` (all other bytes unchanged, in order); when the leaf's
Content-Disposition indicates an attachment, the payload bytes are
passed through literally with no line-ending normalization. -/
theorem claim_C6_sevenbit_normalization
    (classify : List Nat → Bool → Bool → EncodingType)
    (hs : List (String × HeaderType)) (c : List Nat) :
    (text_is_attachment hs false = false →
      classify c false true = EncodingType.sevenBit →
      writePartLoop classify [MimePart.text hs c] none [] =
        some (renderMimeHeaders hs ++
          [Chunk.str "Content-Transfer-Encoding: 7bit\r\n\r\n",
            Chunk.bytes (claimNormalize c)])) ∧
    (text_is_attachment hs false = true →
      classify c false false = EncodingType.sevenBit →
      writePartLoop classify [MimePart.text hs c] none [] =
        some (renderMimeHeaders hs ++
          [Chunk.str "Content-Transfer-Encoding: 7bit\r\n\r\n", Chunk.bytes c])) := by
  have heval : writePartLoop classify [MimePart.text hs c] none [] =
      some (writeTextPart classify hs c) := by
    simp [writePartLoop, openChunks, closeChunks]
  constructor
  · intro hatt hcl
    rw [heval]
    simp [writeTextPart, detect_encoding, hatt, hcl, normalize_loop_eq_claimNormalize]
  · intro hatt hcl
    rw [heval]
    simp [writeTextPart, detect_encoding, hatt, hcl]

theorem claim_C6_sevenbit_normalization_witness :
    writePartLoop (constClassifier EncodingType.sevenBit)
        [MimePart.text
          [("Content-Type",
            HeaderType.contentType ((ContentType.new "text/plain").attrib "charset" "utf-8"))]
          [104, 10]]
        none [] =
      some (renderMimeHeaders
          [("Content-Type",
            HeaderType.contentType ((ContentType.new "text/plain").attrib "charset" "utf-8"))] ++
        [Chunk.str "Content-Transfer-Encoding: 7bit\r\n\r\n",
          Chunk.bytes (claimNormalize [104, 10])]) :=
  (claim_C6_sevenbit_normalization (constClassifier EncodingType.sevenBit)
    [("Content-Type",
      HeaderType.contentType ((ContentType.new "text/plain").attrib "charset" "utf-8"))]
    [104, 10]).1 (by decide) rfl

/-- C4 (amended): for a Multipart node whose Content-Type header is a
structured ContentType value, `write_part` emits `Content-Type: ` and the
rendered value — reusing a caller-supplied `boundary` attribute when one
is present and otherwise inserting a freshly generated token — followed
by the remaining headers and a blank line, and the boundary token becomes
the active boundary for the node's children (the attribute having been
removed from where it was stored); a Multipart node with no Content-Type
header at all is emitted as `multipart/mixed` with a fresh boundary.
When the Content-Type header is instead a Raw value that already carries
`boundary="<token>"`, the token is reused as the active boundary but
nothing is written after the bare `Content-Type: ` prefix — the claimed
`Content-Type: multipart/...; boundary="<token>"` header line is not
emitted in that case (see the counterexample). -/
theorem claim_C4_amended (classify : List Nat → Bool → Bool → EncodingType)
    (hs : List (String × HeaderType)) (parts : List MimePart) :
    (∀ ct tok rest,
      alistRemove hs "Content-Type" = (some (HeaderType.contentType ct), rest) →
      alistLookup ct.attributes "boundary" = some tok →
      writePartLoop classify [MimePart.multipart hs parts] none [] =
        (writePartLoop classify parts (some tok) []).map (fun tail =>
          [Chunk.str "Content-Type: ", Chunk.str (ContentType.render ct)] ++
            renderMimeHeaders rest ++ [Chunk.str "\r\n"] ++ tail)) ∧
    (∀ ct rest,
      alistRemove hs "Content-Type" = (some (HeaderType.contentType ct), rest) →
      alistLookup ct.attributes "boundary" = none →
      writePartLoop classify [MimePart.multipart hs parts] none [] =
        (writePartLoop classify parts (some make_boundary) []).map (fun tail =>
          [Chunk.str "Content-Type: ",
            Chunk.str (ContentType.render
              ⟨ct.ctype, alistInsert ct.attributes "boundary" make_boundary⟩)] ++
            renderMimeHeaders rest ++ [Chunk.str "\r\n"] ++ tail)) ∧
    (∀ rest,
      alistRemove hs "Content-Type" = (none, rest) →
      writePartLoop classify [MimePart.multipart hs parts] none [] =
        (writePartLoop classify parts (some make_boundary) []).map (fun tail =>
          [Chunk.str "Content-Type: ",
            Chunk.str (ContentType.render
              ⟨"multipart/mixed", [("boundary", make_boundary)]⟩)] ++
            renderMimeHeaders rest ++ [Chunk.str "\r\n"] ++ tail)) ∧
    (∀ rv tok rest,
      alistRemove hs "Content-Type" = (some (HeaderType.raw rv), rest) →
      rawFindBoundary rv = some tok →
      writePartLoop classify [MimePart.multipart hs parts] none [] =
        (writePartLoop classify parts (some tok) []).map (fun tail =>
          [Chunk.str "Content-Type: "] ++
            renderMimeHeaders rest ++ [Chunk.str "\r\n"] ++ tail)) := by
  refine ⟨?_, ?_, ?_, ?_⟩
  · intro ct tok rest hrem hlook
    have hmct : multipartContentType hs =
        some ([Chunk.str (ContentType.render ct)], some tok, rest) := by
      simp [multipartContentType, hrem, hlook]
    rcases htail : writePartLoop classify parts (some tok) [] with _ | tail <;>
      simp [writePartLoop, hmct, htail, openChunks]
  · intro ct rest hrem hlook
    have hmct : multipartContentType hs =
        some ([Chunk.str (ContentType.render
            ⟨ct.ctype, alistInsert ct.attributes "boundary" make_boundary⟩)],
          some make_boundary, rest) := by
      simp [multipartContentType, hrem, hlook, alistLookup_insert_self]
    rcases htail : writePartLoop classify parts (some make_boundary) [] with _ | tail <;>
      simp [writePartLoop, hmct, htail, openChunks]
  · intro rest hrem
    have hmct : multipartContentType hs =
        some ([Chunk.str (ContentType.render
            ⟨"multipart/mixed", [("boundary", make_boundary)]⟩)],
          some make_boundary, rest) := by
      simp [multipartContentType, hrem, ContentType.new, ContentType.attrib, alistInsert]
    rcases htail : writePartLoop classify parts (some make_boundary) [] with _ | tail <;>
      simp [writePartLoop, hmct, htail, openChunks]
  · intro rv tok rest hrem hraw
    have hmct : multipartContentType hs = some ([], some tok, rest) := by
      simp [multipartContentType, hrem, hraw]
    rcases htail : writePartLoop classify parts (some tok) [] with _ | tail <;>
      simp [writePartLoop, hmct, htail, openChunks]

theorem claim_C4_amended_witness :
    writePartLoop (constClassifier EncodingType.base64)
        [MimePart.multipart
          [("Content-Type",
            HeaderType.contentType ⟨"multipart/alternative", [("boundary", "xyz")]⟩)] []]
        none [] =
      (writePartLoop (constClassifier EncodingType.base64) [] (some "xyz") []).map
        (fun tail =>
          [Chunk.str "Content-Type: ",
            Chunk.str (ContentType.render ⟨"multipart/alternative", [("boundary", "xyz")]⟩)] ++
            renderMimeHeaders [] ++ [Chunk.str "\r\n"] ++ tail) :=
  (claim_C4_amended (constClassifier EncodingType.base64)
    [("Content-Type",
      HeaderType.contentType ⟨"multipart/alternative", [("boundary", "xyz")]⟩)] []).1
    ⟨"multipart/alternative", [("boundary", "xyz")]⟩ "xyz" []
    (by decide) (by decide)

/-- C4 (counterexample to the claim as stated): a Multipart node whose
Content-Type header was pre-set as a Raw value carrying
`boundary="abc"` reuses the token as the active boundary (the closing
delimiter carries `abc`), but the emitted stream contains only the bare
`Content-Type: ` prefix followed by the blank line — no chunk of the
output mentions `multipart` at all, so no header line of the form
`Content-Type: multipart/...; boundary="<token>"` is emitted. -/
theorem claim_C4_counterexample :
    writePart (constClassifier EncodingType.base64)
        (MimePart.multipart
          [("Content-Type", HeaderType.raw "multipart/mixed; boundary=\"abc\"")] []) =
      some [Chunk.str "Content-Type: ", Chunk.str "\r\n", Chunk.closeDelim "abc"] ∧
    ([Chunk.str "Content-Type: ", Chunk.str "\r\n", Chunk.closeDelim "abc"].all
      (fun c => !(chunkMentions c "multipart"))) = true := by
  constructor
  · have hraw : rawFindBoundary "multipart/mixed; boundary=\"abc\"" = some "abc" := by
      decide
    have hmct : multipartContentType
        [("Content-Type", HeaderType.raw "multipart/mixed; boundary=\"abc\"")] =
        some ([], some "abc", []) := by
      simp [multipartContentType, alistRemove, hraw]
    simp [writePart, writePartLoop, hmct, openChunks, closeChunks, renderMimeHeaders]
  · decide
